import Mathlib

/-!
# The retry engine of `internal/tfresource/retry.go`

A shallow embedding of the retry helpers of the package `tfresource`
(`RetryWhenContext`, its five specialisations, `Options` and `RetryContext`)
together with the pieces of the plugin SDK package `resource` they are built
on (`RetryError`, `StateChangeConf`, `WaitForStateContext`), and of the
expanders and flatteners of `internal/service/s3/flex.go` for lifecycle rule
filters, lifecycle expirations and replication times.

Conventions of the embedding.

* Time is explicit: an instant and a `time.Duration` are integers counting
  nanoseconds. Every function that can sleep or call the operation takes the
  instant at which it is entered and returns, in a `Run`, the instant at
  which it returns.
* A Go closure `func() (interface{}, error)` that may read and change the
  outside world is a function of the current instant and of a state `σ`; it
  returns its Go results and the next state. A call itself takes no time.
* A Go `error` is an `Option Error`, `none` being `nil`; a Go `interface{}`
  result is an `Option α`, `none` being `nil`.
* Variables a closure captures and assigns (`output`, `resultErr`) are
  components of the state threaded through the wait.
* The `context.Context` argument is the background context: it is never
  cancelled and has no deadline, as in the wrappers without `Context`.
* A Go panic is the result `none` of a function that returns an `Option`; a
  random draw is an explicit argument.
-/

namespace resource

/-- Values of `time.Duration`: a number of nanoseconds. -/
abbrev Duration := Int

/-- Instants of the clock, in nanoseconds. -/
abbrev Time := Int

/-- The constant `time.Millisecond`. -/
def Millisecond : Duration := 1000000

/-- The constant `time.Second`. -/
def Second : Duration := 1000 * Millisecond

/-- The constant `time.Minute`. -/
def Minute : Duration := 60 * Second

/-- Non-nil Go error values met by the retry helpers.
`errorString` is the result of `errors.New`, `awsError` of `awserr.New code
message nil`, `notFoundError` is `&resource.NotFoundError{}`,
`unexpectedStateError` and the two `timeoutError` forms are the errors of
`WaitForStateContext` (`timeoutError` has a nil `LastError`, `timeoutErrorLast`
a non-nil one), and `wrapError` is an error wrapping another one, as built by
`fmt.Errorf` with the verb `%w`. -/
inductive Error where
  | errorString (text : String)
  | awsError (code message : String)
  | notFoundError
  | unexpectedStateError (state : String) (expectedState : List String)
  | timeoutError (lastState : String) (timeout : Duration) (expectedState : List String)
  | timeoutErrorLast (lastError : Error) (lastState : String) (timeout : Duration)
      (expectedState : List String)
  | wrapError (text : String) (err : Error)
  deriving DecidableEq, Repr

/-- What a call returns to its caller: the Go results `ret`, the state of the
world after the call and the instant at which the call returns. -/
structure Run (ρ σ : Type) where
  ret : ρ
  state : σ
  now : Time
  deriving DecidableEq, Repr

/-- The struct `resource.RetryError`. -/
structure RetryError where
  Err : Option Error
  Retryable : Bool
  deriving DecidableEq, Repr

/-- Modelled from the spec: `resource.RetryableError` of the plugin SDK, which
is not part of this repository. It marks the effective error as one to retry
on. -/
def RetryableError (err : Option Error) : RetryError :=
  { Err := err, Retryable := true }

/-- Modelled from the spec: `resource.NonRetryableError` of the plugin SDK,
which is not part of this repository. It marks the error as terminal. -/
def NonRetryableError (err : Option Error) : RetryError :=
  { Err := err, Retryable := false }

/-- The type `resource.RetryFunc`, `func() *RetryError`; a nil pointer is
`none`. -/
abbrev RetryFunc (σ : Type) := Time → σ → Option RetryError × σ

/-- The type `resource.StateRefreshFunc`,
`func() (result interface{}, state string, err error)`. -/
abbrev StateRefreshFunc (τ β : Type) := Time → τ → (Option β × String × Option Error) × τ

/-- The fields of `resource.StateChangeConf` that the retry helpers set. -/
structure StateChangeConf (τ β : Type) where
  Delay : Duration
  Pending : List String
  Refresh : StateRefreshFunc τ β
  Target : List String
  Timeout : Duration
  MinTimeout : Duration
  PollInterval : Duration

/-- The wait before the second refresh is derived from this first value. -/
def initialWait : Duration := 100 * Millisecond

/-- The cap of the exponential backoff. -/
def maxWait : Duration := 10 * Second

/-- Modelled from the spec: the spacing policy of the wait of the plugin SDK,
which is not part of this repository. The next sleep is the fixed
`PollInterval` when one is set, otherwise the doubled previous wait, floored
at `MinTimeout` and capped at `maxWait`. -/
def nextWait (minTimeout pollInterval wait : Duration) : Duration :=
  if 0 < pollInterval then pollInterval
  else if wait * 2 < minTimeout then minTimeout
  else if maxWait < wait * 2 then maxWait
  else wait * 2

/-- The loop variables of the wait: the instant of the next refresh, the
current backoff, the label seen last and the state of the world. -/
structure Tick (τ : Type) where
  now : Time
  wait : Duration
  lastState : String
  st : τ

/-- Modelled from the spec: how the wait of the plugin SDK ends when its
deadline passes: with a timeout error that carries the last label and no
last error, at the deadline. -/
def timedOutRun {τ β : Type} (conf : StateChangeConf τ β) (deadline : Time) (k : Tick τ) :
    Run (Option β × Option Error) τ :=
  { ret := (none, some (Error.timeoutError k.lastState conf.Timeout conf.Target)),
    state := k.st, now := deadline }

/-- Modelled from the spec: the refresh loop of `WaitForStateContext` of the
plugin SDK, which is not part of this repository. No refresh starts at or
after the deadline. A refresh error ends the wait with that error, a label in
`Target` ends it with the refreshed value, a label in `Pending` makes it sleep
and go round again, and any other label ends it with an unexpected state
error. The first argument bounds the number of rounds; `WaitForStateContext`
passes a bound that the deadline reaches first. -/
def waitLoop {τ β : Type} (conf : StateChangeConf τ β) (deadline : Time) :
    Nat → Tick τ → Run (Option β × Option Error) τ
  | 0, k => timedOutRun conf deadline k
  | fuel + 1, k =>
    if deadline ≤ k.now then timedOutRun conf deadline k
    else
      match conf.Refresh k.now k.st with
      | ((res, _, some err), s) => { ret := (res, some err), state := s, now := k.now }
      | ((res, currentState, none), s) =>
        if currentState ∈ conf.Target then { ret := (res, none), state := s, now := k.now }
        else if currentState ∈ conf.Pending then
          waitLoop conf deadline fuel
            { now := k.now + nextWait conf.MinTimeout conf.PollInterval k.wait,
              wait := nextWait conf.MinTimeout conf.PollInterval k.wait,
              lastState := currentState, st := s }
        else
          { ret := (res, some (Error.unexpectedStateError currentState conf.Target)),
            state := s, now := k.now }

/-- Modelled from the spec: `(*StateChangeConf).WaitForStateContext` of the
plugin SDK, which is not part of this repository. A timeout of zero or less
fails at once with the timeout error, without a refresh. Otherwise the wait
sleeps `Delay`, then refreshes until a terminal label, an error or the
deadline `now + Timeout`. Successive refreshes are at least a nanosecond
apart, so `Timeout` rounds are enough to reach the deadline. -/
def StateChangeConf.WaitForStateContext {τ β : Type} (conf : StateChangeConf τ β)
    (now : Time) (s : τ) : Run (Option β × Option Error) τ :=
  if conf.Timeout ≤ 0 then
    { ret := (none, some (Error.timeoutError "" conf.Timeout conf.Target)), state := s, now := now }
  else
    waitLoop conf (now + conf.Timeout) conf.Timeout.toNat
      { now := now + max 0 conf.Delay, wait := initialWait, lastState := "", st := s }

/-- The backoff in force at the refresh numbered `k`, counting from 0, of a
wait whose earlier refreshes all gave a pending label. -/
def waitAt (minTimeout pollInterval : Duration) : Nat → Duration
  | 0 => initialWait
  | k + 1 => nextWait minTimeout pollInterval (waitAt minTimeout pollInterval k)

/-- The instant of the refresh numbered `k`, counting from 0, of a wait
entered at `start` whose earlier refreshes all gave a pending label. -/
def attemptTime (delay minTimeout pollInterval : Duration) (start : Time) : Nat → Time
  | 0 => start + max 0 delay
  | k + 1 => attemptTime delay minTimeout pollInterval start k + waitAt minTimeout pollInterval (k + 1)

/-- The instants at which a wait with the configuration `conf`, entered at
`start`, refreshes. -/
def confTimes {τ β : Type} (conf : StateChangeConf τ β) (start : Time) : Nat → Time :=
  attemptTime conf.Delay conf.MinTimeout conf.PollInterval start

/-- The state of the world before the call numbered `k`, counting from 0, of
the closure `g`, when its calls are made at the instants `times`. -/
def stateAt {σ ρ : Type} (g : Time → σ → ρ × σ) (times : Nat → Time) (s : σ) : Nat → σ
  | 0 => s
  | k + 1 => (g (times k) (stateAt g times s k)).2

/-- What the call numbered `k`, counting from 0, of the closure `g` returns,
when its calls are made at the instants `times`. -/
def resultAt {σ ρ : Type} (g : Time → σ → ρ × σ) (times : Nat → Time) (s : σ) (k : Nat) : ρ :=
  (g (times k) (stateAt g times s k)).1

/-- The closure `g` instrumented to log the instant of each of its calls. -/
def recorded {σ ρ : Type} (g : Time → σ → ρ × σ) : Time → σ × List Time → ρ × (σ × List Time) :=
  fun now s => ((g now s.1).1, ((g now s.1).2, s.2 ++ [now]))

/-- The label a wait has seen last when it is about to make the refresh
numbered `k`. -/
def labelAt {τ β : Type} (conf : StateChangeConf τ β) (start : Time) (s : τ) : Nat → String
  | 0 => ""
  | k + 1 => (resultAt conf.Refresh (confTimes conf start) s k).2.1

/-- The loop variables of a wait about to make the refresh numbered `k`. -/
def tickAt {τ β : Type} (conf : StateChangeConf τ β) (start : Time) (s : τ) (k : Nat) : Tick τ :=
  { now := confTimes conf start k, wait := waitAt conf.MinTimeout conf.PollInterval k,
    lastState := labelAt conf start s k, st := stateAt conf.Refresh (confTimes conf start) s k }

/-- The refresh numbered `k` of a wait gives no error and a label of
`Pending` that is not in `Target`: the wait goes round again. -/
def stillPending {τ β : Type} (conf : StateChangeConf τ β) (start : Time) (s : τ) (k : Nat) : Prop :=
  (resultAt conf.Refresh (confTimes conf start) s k).2.2 = none
    ∧ (resultAt conf.Refresh (confTimes conf start) s k).2.1 ∉ conf.Target
    ∧ (resultAt conf.Refresh (confTimes conf start) s k).2.1 ∈ conf.Pending

end resource

namespace tfresource

open resource

/-- The type `Retryable`, `func(error) (bool, error)`. -/
abbrev Retryable := Option Error → Bool × Option Error

/-- An operation `func() (interface{}, error)` acting on a world of type `σ`. -/
abbrev Operation (σ α : Type) := Time → σ → (Option α × Option Error) × σ

/-- Modelled from the spec: `TimedOut` of this package, whose file is not among
the sources. It holds of the timeout error of a wait that carries no last
error, and of nothing else; a wrapped timeout error does not count. -/
def TimedOut : Option Error → Bool
  | some (Error.timeoutError _ _ _) => true
  | _ => false

/-- Whether the chain of wrapped errors starting at the error contains a
`resource.NotFoundError`. -/
def isNotFound : Error → Bool
  | Error.notFoundError => true
  | Error.wrapError _ err => isNotFound err
  | _ => false

/-- Modelled from the spec: `NotFound` of this package, whose file is not among
the sources. It holds when the error is, or wraps, a
`resource.NotFoundError`. -/
def NotFound : Option Error → Bool
  | some err => isNotFound err
  | none => false

/-- The AWS error found first in the chain of wrapped errors, as its code and
message. -/
def asAWSError : Error → Option (String × String)
  | Error.awsError code message => some (code, message)
  | Error.wrapError _ err => asAWSError err
  | _ => none

/-- Modelled from the spec: `tfawserr.ErrCodeEquals` of the AWS SDK shim, which
is not part of this repository. The error is an AWS error whose code is one of
the given codes. -/
def ErrCodeEquals (err : Option Error) (codes : List String) : Bool :=
  match err.bind asAWSError with
  | some (code, _) => decide (code ∈ codes)
  | none => false

/-- Modelled from the spec: `tfawserr.ErrMessageContains` of the AWS SDK shim,
which is not part of this repository. The error is an AWS error with the given
code whose message contains the given text. -/
def ErrMessageContains (err : Option Error) (code message : String) : Bool :=
  match err.bind asAWSError with
  | some (c, m) => decide (c = code) && decide (message.data <:+: m.data)
  | none => false

/-- The struct `Options`. -/
structure Options where
  Delay : Duration := 0
  MinPollInterval : Duration := 0
  PollInterval : Duration := 0
  deriving DecidableEq, Repr

/-- The method `Options.Apply`; the updated configuration is returned. -/
def Options.Apply {τ β : Type} (o : Options) (c : StateChangeConf τ β) : StateChangeConf τ β :=
  let c := if 0 < o.Delay then { c with Delay := o.Delay } else c
  let c := if 0 < o.MinPollInterval then { c with MinTimeout := o.MinPollInterval } else c
  if 0 < o.PollInterval then { c with PollInterval := o.PollInterval } else c

/-- The type `OptionsFunc`, `func(*Options)`; the updated options are
returned. -/
abbrev OptionsFunc := Options → Options

/-- The function `WithDelay`. -/
def WithDelay (delay : Duration) : OptionsFunc :=
  fun o => { o with Delay := delay }

/-- The function `WithMinPollInterval`. -/
def WithMinPollInterval (minPollInterval : Duration) : OptionsFunc :=
  fun o => { o with MinPollInterval := minPollInterval }

/-- The function `WithPollInterval`. -/
def WithPollInterval (pollInterval : Duration) : OptionsFunc :=
  fun o => { o with PollInterval := pollInterval }

/-- The loop of `RetryContext` that runs the option functions on the zero
`Options`. -/
def buildOptions (optFns : List OptionsFunc) : Options :=
  optFns.foldl (fun options fn => fn options) {}

/-- The `Refresh` closure of `RetryContext`. Its state is the world of `f`
paired with the captured variable `resultErr`. -/
def retryRefresh {σ : Type} (f : RetryFunc σ) : StateRefreshFunc (σ × Option Error) Nat :=
  fun now s =>
    match f now s.1 with
    | (none, s') => ((some 42, "success", none), (s', none))
    | (some rerr, s') =>
      if rerr.Retryable then ((some 42, "retryableerror", none), (s', rerr.Err))
      else ((none, "quit", rerr.Err), (s', rerr.Err))

/-- The configuration `RetryContext` builds and then lets the options
change. -/
def retryConf {σ : Type} (timeout : Duration) (f : RetryFunc σ) (optFns : List OptionsFunc) :
    StateChangeConf (σ × Option Error) Nat :=
  (buildOptions optFns).Apply
    { Delay := 0, Pending := ["retryableerror"], Refresh := retryRefresh f,
      Target := ["success"], Timeout := timeout, MinTimeout := 0, PollInterval := 0 }

/-- The wait run by `RetryContext`, `c.WaitForStateContext(ctx)`, started with
`resultErr` nil. -/
def retryWait {σ : Type} (timeout : Duration) (f : RetryFunc σ) (optFns : List OptionsFunc)
    (now : Time) (s : σ) : Run (Option Nat × Option Error) (σ × Option Error) :=
  (retryConf timeout f optFns).WaitForStateContext now (s, none)

/-- The function `RetryContext`. -/
def RetryContext {σ : Type} (timeout : Duration) (f : RetryFunc σ) (optFns : List OptionsFunc)
    (now : Time) (s : σ) : Run (Option Error) σ :=
  let w := retryWait timeout f optFns now s
  match w.state.2 with
  | none => { ret := w.ret.2, state := w.state.1, now := w.now }
  | some resultErr => { ret := some resultErr, state := w.state.1, now := w.now }

end tfresource

namespace resource

/-- Modelled from the spec: `resource.RetryContext` of the plugin SDK, which is
not part of this repository. `tfresource.RetryContext` is that function with
configurable time arguments, so the SDK function is taken to be
`tfresource.RetryContext` without option functions. -/
def RetryContext {σ : Type} (timeout : Duration) (f : RetryFunc σ) (now : Time) (s : σ) :
    Run (Option Error) σ :=
  tfresource.RetryContext timeout f [] now s

end resource

namespace tfresource

open resource

/-- The closure `RetryWhenContext` hands to `resource.RetryContext`. Its state
is the world of `f` paired with the captured variable `output`. -/
def retryWhenFunc {σ α : Type} (f : Operation σ α) (retryable : Retryable) :
    RetryFunc (σ × Option α) :=
  fun now s =>
    match f now s.1 with
    | ((output, err), s') =>
      match retryable err with
      | (true, err) => (some (RetryableError err), (s', output))
      | (false, some err) => (some (NonRetryableError (some err)), (s', output))
      | (false, none) => (none, (s', output))

/-- The retry loop of `RetryWhenContext`: the call of `resource.RetryContext`,
started with `output` nil. -/
def retryWhenLoop {σ α : Type} (timeout : Duration) (f : Operation σ α) (retryable : Retryable)
    (now : Time) (s : σ) : Run (Option Error) (σ × Option α) :=
  resource.RetryContext timeout (retryWhenFunc f retryable) now (s, none)

/-- The function `RetryWhenContext`. -/
def RetryWhenContext {σ α : Type} (timeout : Duration) (f : Operation σ α)
    (retryable : Retryable) (now : Time) (s : σ) : Run (Option α × Option Error) σ :=
  let r := retryWhenLoop timeout f retryable now s
  let last : Run (Option α × Option Error) σ :=
    if TimedOut r.ret then
      { ret := (f r.now r.state.1).1, state := (f r.now r.state.1).2, now := r.now }
    else
      { ret := (r.state.2, r.ret), state := r.state.1, now := r.now }
  match last.ret.2 with
  | some err => { last with ret := (none, some err) }
  | none => { last with ret := (last.ret.1, none) }

/-- The function `RetryWhenAWSErrCodeEqualsContext`. -/
def RetryWhenAWSErrCodeEqualsContext {σ α : Type} (timeout : Duration) (f : Operation σ α)
    (codes : List String) (now : Time) (s : σ) : Run (Option α × Option Error) σ :=
  RetryWhenContext timeout f
    (fun err => if ErrCodeEquals err codes then (true, err) else (false, err)) now s

/-- The function `RetryWhenAWSErrMessageContainsContext`. -/
def RetryWhenAWSErrMessageContainsContext {σ α : Type} (timeout : Duration) (f : Operation σ α)
    (code message : String) (now : Time) (s : σ) : Run (Option α × Option Error) σ :=
  RetryWhenContext timeout f
    (fun err => if ErrMessageContains err code message then (true, err) else (false, err)) now s

/-- The package variable `errFoundResource`. -/
def errFoundResource : Error := Error.errorString "found resource"

/-- The predicate of `RetryUntilNotFoundContext`. -/
def untilNotFound : Retryable :=
  fun err =>
    if NotFound err then (false, none)
    else
      match err with
      | some e => (false, some e)
      | none => (true, some errFoundResource)

/-- The function `RetryUntilNotFoundContext`. -/
def RetryUntilNotFoundContext {σ α : Type} (timeout : Duration) (f : Operation σ α)
    (now : Time) (s : σ) : Run (Option α × Option Error) σ :=
  RetryWhenContext timeout f untilNotFound now s

/-- The function `RetryWhenNotFoundContext`. -/
def RetryWhenNotFoundContext {σ α : Type} (timeout : Duration) (f : Operation σ α)
    (now : Time) (s : σ) : Run (Option α × Option Error) σ :=
  RetryWhenContext timeout f (fun err => if NotFound err then (true, err) else (false, err)) now s

/-- The function `RetryWhenNewResourceNotFoundContext`. -/
def RetryWhenNewResourceNotFoundContext {σ α : Type} (timeout : Duration) (f : Operation σ α)
    (isNewResource : Bool) (now : Time) (s : σ) : Run (Option α × Option Error) σ :=
  RetryWhenContext timeout f
    (fun err => if isNewResource && NotFound err then (true, err) else (false, err)) now s

end tfresource

namespace tfresource

open resource

/-- The instants at which `RetryContext timeout f optFns`, entered at `start`,
calls `f`, as long as the results of `f` are retryable. -/
def retryTimes {σ : Type} (timeout : Duration) (f : RetryFunc σ) (optFns : List OptionsFunc)
    (start : Time) : Nat → Time :=
  confTimes (retryConf timeout f optFns) start

/-- The variable `resultErr` of `RetryContext` before the call numbered `k` of
`f`: nil at first, then what the previous call recorded. -/
def resultErrAt {σ : Type} (f : RetryFunc σ) (times : Nat → Time) (s : σ) : Nat → Option Error
  | 0 => none
  | k + 1 =>
    match resultAt f times s k with
    | none => none
    | some rerr => rerr.Err

/-- What the `Refresh` closure of `RetryContext` returns when `f` returned
`r`. -/
def refreshOf (r : Option RetryError) : Option Nat × String × Option Error :=
  match r with
  | none => (some 42, "success", none)
  | some rerr =>
    if rerr.Retryable then (some 42, "retryableerror", none) else (none, "quit", rerr.Err)

/-- The label the wait of `RetryContext` has seen last after `k` retryable
results. -/
def retryLabel (k : Nat) : String :=
  if k = 0 then "" else "retryableerror"

/-- The instants at which the retry loop of `RetryWhenContext`, entered at
`start`, calls `f`, as long as the results of `f` are retryable. -/
def whenTimes (start : Time) : Nat → Time :=
  attemptTime 0 0 0 start

/-- The variable `output` of `RetryWhenContext` before the call numbered `k`
of `f`: nil at first, then the value the previous call returned. -/
def outputAt {σ α : Type} (f : Operation σ α) (times : Nat → Time) (s : σ) : Nat → Option α
  | 0 => none
  | k + 1 => (resultAt f times s k).1

/-- What the closure of `RetryWhenContext` returns when `f` returned the error
`err`. -/
def classify (retryable : Retryable) (err : Option Error) : Option RetryError :=
  match retryable err with
  | (true, err) => some (RetryableError err)
  | (false, some err) => some (NonRetryableError (some err))
  | (false, none) => none

end tfresource

namespace tfresource

open resource

/-- The most recent reason the retry loop of `RetryWhenContext` has recorded
before the call numbered `k` of `f`: nil at first, then the effective error the
predicate gave for the previous result. -/
def reasonAt {σ α : Type} (retryable : Retryable) (f : Operation σ α) (times : Nat → Time)
    (s : σ) : Nat → Option Error
  | 0 => none
  | k + 1 => (retryable (resultAt f times s k).2).2

/-- What `RetryWhenContext` returns for the value `output` and the error `err`
it ends with: `nil, err` when the error is not nil and `output, nil` when it
is. -/
def returned {α : Type} (output : Option α) (err : Option Error) : Option α × Option Error :=
  match err with
  | some x => (none, some x)
  | none => (output, none)

/-- The last lines of `RetryWhenContext` after a call of `f` made at `now` in
the state `s`: the value of the call is kept only when its error is nil. -/
def lastChance {σ α : Type} (f : Operation σ α) (now : Time) (s : σ) :
    Run (Option α × Option Error) σ :=
  match (f now s).1.2 with
  | some err => { ret := (none, some err), state := (f now s).2, now := now }
  | none => { ret := ((f now s).1.1, none), state := (f now s).2, now := now }

end tfresource

/-! ## The predicates of the wrappers -/

namespace tfresource

open resource

/-- The predicate `RetryWhenAWSErrCodeEqualsContext` passes to
`RetryWhenContext`. -/
def codeEqualsRetryable (codes : List String) : Retryable :=
  fun err => if ErrCodeEquals err codes then (true, err) else (false, err)

/-- The predicate `RetryWhenAWSErrMessageContainsContext` passes to
`RetryWhenContext`. -/
def messageContainsRetryable (code message : String) : Retryable :=
  fun err => if ErrMessageContains err code message then (true, err) else (false, err)

/-- The predicate `RetryWhenNotFoundContext` passes to `RetryWhenContext`. -/
def notFoundRetryable : Retryable :=
  fun err => if NotFound err then (true, err) else (false, err)

/-- The predicate `RetryWhenNewResourceNotFoundContext` passes to
`RetryWhenContext`. -/
def newResourceNotFoundRetryable (isNewResource : Bool) : Retryable :=
  fun err => if isNewResource && NotFound err then (true, err) else (false, err)

end tfresource

namespace tfresource

open resource

/-- What `RetryWhenContext` returns for an operation whose every call returns
`r`, whenever and in whatever state of the world it is called. With a timeout
of zero or less the result is that of the last-chance call. Otherwise a result
the predicate does not retry on ends the loop, and a result it retries on is
retried until the timeout; the last-chance call follows when the error the loop
ends with is nil or a timed-out error. -/
def constOutcome {α : Type} (timeout : Duration) (p : Retryable) (r : Option α × Option Error) :
    Option α × Option Error :=
  if 0 < timeout then
    if (p r.2).1 = true then
      match (p r.2).2 with
      | none => returned r.1 r.2
      | some x => if TimedOut (some x) then returned r.1 r.2 else (none, some x)
    else if TimedOut (p r.2).2 then returned r.1 r.2
    else returned r.1 (p r.2).2
  else returned r.1 r.2

end tfresource

/-! ## Random delay, and an instrumentation for the value of the last call -/

namespace tfresource

open resource

/-- The method `Milliseconds` of `time.Duration`: the duration as a count of
milliseconds, the division truncating toward zero. -/
def Milliseconds (d : Duration) : Int :=
  Int.tdiv d 1000000

/-- The function `rand.Int63n` of the standard library, which is not part of
this repository, as its documentation describes it: for a positive `n` a number
in `[0, n)`, here the one the outcome `draw` of the random source selects, and a
panic, `none`, for `n` zero or less. Every number of `[0, n)` is selected by
some outcome. -/
def Int63n (n : Int) (draw : Nat) : Option Int :=
  if n ≤ 0 then none else some ((draw : Int) % n)

/-- The function `WithDelayRand`. The option function it returns is applied to
the options `o` with the outcome `draw` of the random source; `none` is a
panic. -/
def WithDelayRand (delayRand : Duration) (draw : Nat) (o : Options) : Option Options :=
  match Int63n (Milliseconds delayRand) draw with
  | some n => some { o with Delay := n * Millisecond }
  | none => none

/-- The operation `f` instrumented to remember, next to the state of the world,
the value its most recent call returned; `none` as long as it was not
called. -/
def tracked {σ α : Type} (f : Operation σ α) : Operation (σ × Option (Option α)) α :=
  fun now s => ((f now s.1).1, ((f now s.1).2, some (f now s.1).1.1))

end tfresource

/-! ## The package `s3`: expanders and flatteners of `flex.go` -/

namespace s3

/-- Go values of type `interface{}` as the plugin SDK hands them to the
expanders: nil, a `bool`, an `int`, a `string`, a `[]interface{}` or a
`map[string]interface{}`, the map being the list of its entries. The type `int`
is taken to be 64 bits wide. -/
inductive TfValue where
  | null
  | bool (b : Bool)
  | int (n : Int)
  | string (s : String)
  | list (l : List TfValue)
  | map (m : List (String × TfValue))

/-- The index expression `m[key]` on a `map[string]interface{}`; an absent key
gives `none`, which behaves as a nil `interface{}`. -/
def index (m : List (String × TfValue)) (key : String) : Option TfValue :=
  m.lookup key

/-- The assignment `m[key] = v` on a `map[string]interface{}`. -/
def setKey (m : List (String × TfValue)) (key : String) (v : TfValue) :
    List (String × TfValue) :=
  (key, v) :: m.filter (fun e => e.1 != key)

/-- The type assertion `v.(string)` with the `ok` form. -/
def asString : Option TfValue → Option String
  | some (TfValue.string s) => some s
  | _ => none

/-- The type assertion `v.(int)` with the `ok` form. -/
def asInt : Option TfValue → Option Int
  | some (TfValue.int n) => some n
  | _ => none

/-- The type assertion `v.(bool)` with the `ok` form. -/
def asBool : Option TfValue → Option Bool
  | some (TfValue.bool b) => some b
  | _ => none

/-- The type assertion `v.([]interface{})` with the `ok` form. -/
def asList : Option TfValue → Option (List TfValue)
  | some (TfValue.list l) => some l
  | _ => none

/-- The type assertion `v.(map[string]interface{})` with the `ok` form. -/
def asMap : Option TfValue → Option (List (String × TfValue))
  | some (TfValue.map m) => some m
  | _ => none

/-- A value of `time.Time`, as an instant. -/
abbrev TimeValue := Int

/-- The struct `s3.LifecycleExpiration`; a nil pointer field is `none`. -/
structure LifecycleExpiration where
  Date : Option TimeValue
  Days : Option Int
  ExpiredObjectDeleteMarker : Option Bool
  deriving DecidableEq, Repr

/-- The function `ExpandLifecycleRuleExpiration`. The function `time.Parse`
with the layout `time.RFC3339`, of the standard library, is the parameter
`parseRFC3339`. The outer `none` is a panic, of the unchecked type assertion on
`l[0]`; otherwise the two Go results are returned. -/
def ExpandLifecycleRuleExpiration (parseRFC3339 : String → Except resource.Error TimeValue)
    (l : List TfValue) : Option (Option LifecycleExpiration × Option resource.Error) :=
  match l with
  | [] => some (none, none)
  | TfValue.null :: _ =>
    some (some { Date := none, Days := none, ExpiredObjectDeleteMarker := none }, none)
  | TfValue.map m :: _ =>
    let date : Except resource.Error (Option TimeValue) :=
      match asString (index m "date") with
      | some v =>
        if v ≠ "" then
          match parseRFC3339 v with
          | Except.ok t => Except.ok (some t)
          | Except.error err => Except.error err
        else Except.ok none
      | none => Except.ok none
    match date with
    | Except.error err =>
      some (none, some (resource.Error.wrapError
        "error parsing S3 Bucket Lifecycle Rule Expiration date" err))
    | Except.ok resultDate =>
      let resultDays : Option Int :=
        match asInt (index m "days") with
        | some v => if 0 < v then some v else none
        | none => none
      let marker : Option Bool :=
        match asBool (index m "expired_object_delete_marker") with
        | some v => if resultDate = none ∧ resultDays = none then some v else none
        | none => none
      some (some { Date := resultDate, Days := resultDays, ExpiredObjectDeleteMarker := marker },
        none)
  | _ :: _ => none

/-- The struct `s3.Tag`. -/
structure Tag where
  Key : Option String
  Value : Option String
  deriving DecidableEq, Repr

/-- The struct `s3.LifecycleRuleAndOperator`; a nil slice of tags is the empty
list. -/
structure LifecycleRuleAndOperator where
  ObjectSizeGreaterThan : Option Int
  ObjectSizeLessThan : Option Int
  Prefix : Option String
  Tags : List Tag
  deriving DecidableEq, Repr

/-- The struct `s3.LifecycleRuleFilter`. -/
structure LifecycleRuleFilter where
  And : Option LifecycleRuleAndOperator
  ObjectSizeGreaterThan : Option Int
  ObjectSizeLessThan : Option Int
  Prefix : Option String
  Tag : Option Tag
  deriving DecidableEq, Repr

/-- The condition `ok && v > 0` on an `int` entry of a map, and the value
`aws.Int64(int64(v))` it guards. -/
def positiveInt (v : Option TfValue) : Option Int :=
  match asInt v with
  | some n => if 0 < n then some n else none
  | none => none

/-- The function `ExpandLifecycleRuleFilterAndOperator`. The conversion
`Tags(tftags.New(v).IgnoreAWS())`, whose code is not among the sources, is the
parameter `tagsOf`. -/
def ExpandLifecycleRuleFilterAndOperator (tagsOf : TfValue → List Tag)
    (m : List (String × TfValue)) : Option LifecycleRuleAndOperator :=
  if m.length = 0 then none
  else
    some
      { ObjectSizeGreaterThan := positiveInt (index m "object_size_greater_than"),
        ObjectSizeLessThan := positiveInt (index m "object_size_less_than"),
        Prefix := asString (index m "prefix"),
        Tags :=
          match asMap (index m "tags") with
          | some v => if 0 < v.length then tagsOf (TfValue.map v) else []
          | none => [] }

/-- The function `ExpandLifecycleRuleFilter`. The conversion
`Tags(tftags.New(v).IgnoreAWS())`, whose code is not among the sources, is the
parameter `tagsOf`. The outer `none` is a panic, of an unchecked type assertion
on `l[0]` or on the first element of `and`. -/
def ExpandLifecycleRuleFilter (tagsOf : TfValue → List Tag) (l : List TfValue) :
    Option (Option LifecycleRuleFilter) :=
  match l with
  | [] => some none
  | TfValue.null :: _ =>
    some (some { And := none, ObjectSizeGreaterThan := none, ObjectSizeLessThan := none,
                 Prefix := none, Tag := none })
  | TfValue.map m :: _ =>
    let resultAnd : Option (Option LifecycleRuleAndOperator) :=
      match asList (index m "and") with
      | some (TfValue.null :: _) => some none
      | some (TfValue.map a :: _) => some (ExpandLifecycleRuleFilterAndOperator tagsOf a)
      | some (_ :: _) => none
      | some [] => some none
      | none => some none
    match resultAnd with
    | none => none
    | some and =>
      let tag : Option Tag :=
        match asList (index m "tag") with
        | some (TfValue.null :: _) => none
        | some (v0 :: _) => (tagsOf v0).head?
        | some [] => none
        | none => none
      let pfx : Option String :=
        match asString (index m "prefix") with
        | some v => if and = none ∧ tag = none then some v else none
        | none => none
      some (some { And := and,
                   ObjectSizeGreaterThan := positiveInt (index m "object_size_greater_than"),
                   ObjectSizeLessThan := positiveInt (index m "object_size_less_than"),
                   Prefix := pfx, Tag := tag })
  | _ :: _ => none

/-- A conversion of a map to tags, to evaluate the expanders at concrete
inputs: each entry with a string value is a tag, and the entries whose key
starts with `aws:` are left out. -/
def keyValueTags (v : TfValue) : List Tag :=
  match v with
  | TfValue.map m =>
    m.filterMap (fun e =>
      match e.2 with
      | TfValue.string s =>
        if "aws:".data.isPrefixOf e.1.data then none else some { Key := some e.1, Value := some s }
      | _ => none)
  | _ => []

/-- The conversion of an `int64` to `int` and of an `int` to `int64`: the value
modulo `2 ^ 64`, as a signed number; `int` is taken to be 64 bits wide. -/
def wrapInt64 (x : Int) : Int :=
  (x + 9223372036854775808) % 18446744073709551616 - 9223372036854775808

/-- The struct `s3.ReplicationTimeValue`. -/
structure ReplicationTimeValue where
  Minutes : Option Int
  deriving DecidableEq, Repr

/-- The struct `s3.ReplicationTime`. -/
structure ReplicationTime where
  Status : Option String
  Time : Option ReplicationTimeValue
  deriving DecidableEq, Repr

/-- The function `ExpandReplicationTimeValue`. -/
def ExpandReplicationTimeValue (l : List TfValue) : Option ReplicationTimeValue :=
  match l with
  | [] => none
  | TfValue.null :: _ => none
  | TfValue.map tfMap :: _ =>
    some
      { Minutes :=
          match asInt (index tfMap "minutes") with
          | some v => some (wrapInt64 v)
          | none => none }
  | _ :: _ => none

/-- The function `ExpandReplicationTime`. -/
def ExpandReplicationTime (l : List TfValue) : Option ReplicationTime :=
  match l with
  | [] => none
  | TfValue.null :: _ => none
  | TfValue.map tfMap :: _ =>
    some
      { Status :=
          match asString (index tfMap "status") with
          | some v => if v ≠ "" then some v else none
          | none => none,
        Time :=
          match asList (index tfMap "time") with
          | some (TfValue.null :: _) => none
          | some (v0 :: rest) => ExpandReplicationTimeValue (v0 :: rest)
          | some [] => none
          | none => none }
  | _ :: _ => none

/-- The function `FlattenReplicationTimeValue`. -/
def FlattenReplicationTimeValue (rtv : Option ReplicationTimeValue) : List TfValue :=
  match rtv with
  | none => []
  | some v =>
    let m : List (String × TfValue) := []
    let m :=
      match v.Minutes with
      | some minutes => setKey m "minutes" (TfValue.int (wrapInt64 minutes))
      | none => m
    [TfValue.map m]

/-- The function `FlattenReplicationTime`. -/
def FlattenReplicationTime (rt : Option ReplicationTime) : List TfValue :=
  match rt with
  | none => []
  | some v =>
    let m : List (String × TfValue) := []
    let m :=
      match v.Status with
      | some status => setKey m "status" (TfValue.string status)
      | none => m
    let m :=
      match v.Time with
      | some t => setKey m "time" (TfValue.list (FlattenReplicationTimeValue (some t)))
      | none => m
    [TfValue.map m]

/-! ### The dates `time.Parse` accepts, and the dates that are valid RFC 3339

The function `time.Parse` belongs to the Go standard library and is not part of
this repository. It is written down here for the one layout the expander uses,
`time.RFC3339`, that is `2006-01-02T15:04:05Z07:00`, following the general
parser of package `time` element by element. A string is taken as the list of
its characters: a character outside ASCII is no digit and equals no literal of
the layout. -/

/-- The test `isDigit` of package `time` on one character, with the decimal
value of a digit. -/
def digit (c : Char) : Option Nat :=
  if 48 ≤ c.toNat ∧ c.toNat ≤ 57 then some (c.toNat - 48) else none

/-- The function `getnum` of package `time`: it reads one or two digits at the
head of `s` as a decimal number and returns the number and the remainder of the
string; with `fixed` it insists on two digits. -/
def getnum (s : List Char) (fixed : Bool) : Option (Nat × List Char) :=
  match s with
  | [] => none
  | c0 :: rest =>
    match digit c0 with
    | none => none
    | some d0 =>
      match rest with
      | [] => if fixed then none else some (d0, rest)
      | c1 :: rest1 =>
        match digit c1 with
        | some d1 => some (d0 * 10 + d1, rest1)
        | none => if fixed then none else some (d0, rest)

/-- The layout element `2006`: four digits. -/
def getYear (s : List Char) : Option (Nat × List Char) :=
  match s with
  | c0 :: c1 :: c2 :: c3 :: rest =>
    match digit c0, digit c1, digit c2, digit c3 with
    | some d0, some d1, some d2, some d3 => some (d0 * 1000 + d1 * 100 + d2 * 10 + d3, rest)
    | _, _, _, _ => none
  | _ => none

/-- The function `skip` of package `time` for a literal of one character that
is not a space: the character has to be the head of `value`. -/
def skip (value : List Char) (c : Char) : Option (List Char) :=
  match value with
  | [] => none
  | c0 :: rest => if c0 = c then some rest else none

/-- The digits at the head of a string, and the remainder of the string. -/
def takeDigits : List Char → List Nat × List Char
  | [] => ([], [])
  | c :: rest =>
    match digit c with
    | some d => ((d :: (takeDigits rest).1), (takeDigits rest).2)
    | none => ([], c :: rest)

/-- The fractional second that `time.Parse` reads after the seconds when the
layout has none: a period or a comma followed by at least one digit. All the
digits are consumed and the first nine of them count, as nanoseconds. Without
such a fraction nothing is consumed. -/
def getFraction (value : List Char) : Nat × List Char :=
  match value with
  | [] => (0, value)
  | c :: rest =>
    if c = '.' ∨ c = ',' then
      if (takeDigits rest).1 = [] then (0, value)
      else
        (((takeDigits rest).1.take 9).foldl (fun a d => a * 10 + d) 0
            * 10 ^ (9 - ((takeDigits rest).1.take 9).length),
          (takeDigits rest).2)
    else (0, value)

/-- The layout element `Z07:00`: the letter `Z`, or a sign, two digits, a colon
and two digits. The result is the offset from UTC in seconds and the remainder
of the string. The hours and minutes of the offset are not checked against a
range. -/
def getZone (value : List Char) : Option (Int × List Char) :=
  match value with
  | [] => none
  | c :: rest =>
    if c = 'Z' then some (0, rest)
    else
      match rest with
      | h0 :: h1 :: colon :: m0 :: m1 :: rest6 =>
        if colon ≠ ':' then none
        else
          match getnum [h0, h1] true, getnum [m0, m1] true with
          | some (hr, _), some (mm, _) =>
            if c = '+' then some ((((hr * 60 + mm) * 60 : Nat) : Int), rest6)
            else if c = '-' then some (-(((hr * 60 + mm) * 60 : Nat) : Int), rest6)
            else none
          | _, _ => none
      | _ => none

/-- The function `isLeap` of package `time`. -/
def isLeap (year : Nat) : Bool :=
  year % 4 = 0 ∧ (year % 100 ≠ 0 ∨ year % 400 = 0)

/-- The function `daysIn` of package `time`: the number of days of a month. -/
def daysIn (month year : Nat) : Nat :=
  if month = 2 then (if isLeap year then 29 else 28)
  else if month = 4 ∨ month = 6 ∨ month = 9 ∨ month = 11 then 30
  else 31

/-- The number of days from 1970-01-01 to the given day of the proleptic
Gregorian calendar. -/
def daysSinceEpoch (year month day : Nat) : Int :=
  let y : Int := if month ≤ 2 then (year : Int) - 1 else (year : Int)
  let era : Int := y / 400
  let yoe : Int := y - era * 400
  let mp : Int := (((month + 9) % 12 : Nat) : Int)
  let doy : Int := (153 * mp + 2) / 5 + (day : Int) - 1
  let doe : Int := yoe * 365 + yoe / 4 - yoe / 100 + doy
  era * 146097 + doe - 719468

/-- The elements `2006-01-02` of the layout `time.RFC3339`: a year of four
digits, and a month and a day of two digits each, the month from 1 to 12; the
day is checked against the length of the month once all the fields are read.
The result is the year, the month, the day and the remainder of the string;
`none` is a parse error. -/
def parseDate (value : List Char) : Option (Nat × Nat × Nat × List Char) :=
  match getYear value with
  | none => none
  | some (year, value) =>
    match skip value '-' with
    | none => none
    | some value =>
      match getnum value true with
      | none => none
      | some (month, value) =>
        if month = 0 ∨ 12 < month then none
        else
          match skip value '-' with
          | none => none
          | some value =>
            match getnum value true with
            | none => none
            | some (day, value) => some (year, month, day, value)

/-- The elements `T15:04:05` of the layout `time.RFC3339`: the hour is read by
`getnum` without `fixed`, so one digit is enough for it; the minute and the
second are two digits each; an hour of 24 or more and a minute or second of 60
or more are out of range. The result is the hour, the minute, the second and
the remainder of the string; `none` is a parse error. -/
def parseClock (value : List Char) : Option (Nat × Nat × Nat × List Char) :=
  match skip value 'T' with
  | none => none
  | some value =>
    match getnum value false with
    | none => none
    | some (hour, value) =>
      if 24 ≤ hour then none
      else
        match skip value ':' with
        | none => none
        | some value =>
          match getnum value true with
          | none => none
          | some (min, value) =>
            if 60 ≤ min then none
            else
              match skip value ':' with
              | none => none
              | some value =>
                match getnum value true with
                | none => none
                | some (sec, value) =>
                  if 60 ≤ sec then none else some (hour, min, sec, value)

/-- The fields that `time.Parse` reads with the layout `time.RFC3339`, and the
instant they denote, in nanoseconds since 1970-01-01T00:00:00Z; `none` is a
parse error. After the zone nothing may follow, and the day has to be a day of
the month. -/
def parseInstant (value : List Char) : Option TimeValue :=
  match parseDate value with
  | none => none
  | some (year, month, day, value) =>
    match parseClock value with
    | none => none
    | some (hour, min, sec, value) =>
      let nsec : Nat := (getFraction value).1
      match getZone (getFraction value).2 with
      | none => none
      | some (zoneOffset, value) =>
        if value ≠ [] then none
        else if day < 1 ∨ daysIn month year < day then none
        else
          some ((daysSinceEpoch year month day * 86400 + (hour : Int) * 3600
              + (min : Int) * 60 + (sec : Int) - zoneOffset) * 1000000000
            + (nsec : Int))

/-- The call `time.Parse(time.RFC3339, value)`, with the time or the error it
returns. -/
def timeParseRFC3339 (value : String) : Except resource.Error TimeValue :=
  match parseInstant value.toList with
  | some t => Except.ok t
  | none => Except.error (resource.Error.errorString ("parsing time " ++ value))

/-- Two digits, as a number. -/
def twoDigits (c0 c1 : Char) : Option Nat :=
  match digit c0, digit c1 with
  | some d0, some d1 => some (d0 * 10 + d1)
  | _, _ => none

/-- The production `time-offset` of RFC 3339, which has to end the string: `Z`
or `z`, or a sign, an hour of two digits up to 23, a colon, and a minute of two
digits up to 59. -/
def validOffset (s : List Char) : Bool :=
  match s with
  | [z] => z = 'Z' ∨ z = 'z'
  | [sign, h0, h1, colon, m0, m1] =>
    match twoDigits h0 h1, twoDigits m0 m1 with
    | some hr, some mm => (sign = '+' ∨ sign = '-') ∧ colon = ':' ∧ hr ≤ 23 ∧ mm ≤ 59
    | _, _ => false
  | _ => false

/-- The optional production `time-secfrac` of RFC 3339, a period and at least
one digit, followed by the offset. -/
def validFractionAndOffset (s : List Char) : Bool :=
  match s with
  | [] => false
  | c :: rest =>
    if c = '.' then (takeDigits rest).1 ≠ [] ∧ validOffset (takeDigits rest).2
    else validOffset s

/-- The dates that are valid RFC 3339, the words of the claim: the production
`date-time` of section 5.6 of RFC 3339, a `full-date` of four, two and two
digits, the letter `T` or `t`, and a `full-time` whose hour, minute and second
have two digits each, with the ranges of section 5.7: month 01 to 12, day 01 to
the length of the month, hour 00 to 23, minute 00 to 59, second 00 to 60. -/
def validRFC3339 (s : String) : Bool :=
  match s.toList with
  | y0 :: y1 :: y2 :: y3 :: dash0 :: mo0 :: mo1 :: dash1 :: d0 :: d1 :: t
      :: h0 :: h1 :: colon0 :: mi0 :: mi1 :: colon1 :: s0 :: s1 :: rest =>
    match getYear [y0, y1, y2, y3], twoDigits mo0 mo1, twoDigits d0 d1, twoDigits h0 h1,
      twoDigits mi0 mi1, twoDigits s0 s1 with
    | some (year, _), some month, some day, some hour, some min, some sec =>
      dash0 = '-' ∧ dash1 = '-' ∧ (t = 'T' ∨ t = 't') ∧ colon0 = ':' ∧ colon1 = ':'
        ∧ 1 ≤ month ∧ month ≤ 12 ∧ 1 ≤ day ∧ day ≤ daysIn month year
        ∧ hour ≤ 23 ∧ min ≤ 59 ∧ sec ≤ 60 ∧ validFractionAndOffset rest
    | _, _, _, _, _, _ => false
  | _ => false

end s3

/-! ## Operations and predicates used as concrete inputs -/

namespace tfresource

open resource

/-- An operation that returns `r` at every call. -/
def opAlways (r : Option Nat × Option Error) : Operation Unit Nat :=
  fun _ s => (r, s)

/-- An operation whose first `k` calls return `r0` and whose later calls return
`r1`; its state counts the calls made so far. -/
def opSwitch (k : Nat) (r0 r1 : Option Nat × Option Error) : Operation Nat Nat :=
  fun _ n => (if n < k then r0 else r1, n + 1)

/-- An operation that fails with `e` when called before the instant `t` and
returns the value `v` when called at `t` or later. -/
def opLate (t : Time) (e : Error) (v : Nat) : Operation Unit Nat :=
  fun now s => (if now < t then (none, some e) else (some v, none), s)

/-- A predicate that never retries and passes the error on. -/
def neverRetry : Retryable :=
  fun err => (false, err)

/-- A predicate that retries on every non-nil error. -/
def retryOnError : Retryable :=
  fun err =>
    match err with
    | some e => (true, some e)
    | none => (false, none)

/-- A `RetryFunc` that returns `r` at every call. -/
def rfAlways (r : Option RetryError) : RetryFunc Unit :=
  fun _ s => (r, s)

/-- A `RetryFunc` whose first `k` calls return `r0` and whose later calls return
`r1`; its state counts the calls made so far. -/
def rfSwitch (k : Nat) (r0 r1 : Option RetryError) : RetryFunc Nat :=
  fun _ n => (if n < k then r0 else r1, n + 1)

/-- The timeout error of a wait made inside an operation. -/
def errInnerTimeout : Error := Error.timeoutError "creating" Second ["available"]

/-- An error made by `errors.New`. -/
def errBoom : Error := Error.errorString "boom"

/-- An AWS throttling error. -/
def errThrottled : Error := Error.awsError "Throttling" "Rate exceeded"

end tfresource

/-! ## The schedule of a wait -/

namespace resource

theorem nextWait_pos (minTimeout pollInterval wait : Duration) (h : 0 < wait) :
    0 < nextWait minTimeout pollInterval wait := by
  unfold nextWait
  have hm : maxWait = (10000000000 : Int) := by decide
  rw [hm]
  split_ifs <;> linarith

theorem waitAt_pos (minTimeout pollInterval : Duration) (k : Nat) :
    0 < waitAt minTimeout pollInterval k := by
  induction k with
  | zero =>
    have h : waitAt minTimeout pollInterval 0 = (100000000 : Int) := by
      simp only [waitAt]
      decide
    rw [h]
    decide
  | succ k ih => exact nextWait_pos _ _ _ ih

theorem attemptTime_succ_gt (delay minTimeout pollInterval : Duration) (start : Time) (k : Nat) :
    attemptTime delay minTimeout pollInterval start k
      < attemptTime delay minTimeout pollInterval start (k + 1) := by
  have h := waitAt_pos minTimeout pollInterval (k + 1)
  have e : attemptTime delay minTimeout pollInterval start (k + 1)
      = attemptTime delay minTimeout pollInterval start k
        + waitAt minTimeout pollInterval (k + 1) := rfl
  linarith

theorem attemptTime_zero (delay minTimeout pollInterval : Duration) (start : Time) :
    attemptTime delay minTimeout pollInterval start 0 = start + max 0 delay := rfl

theorem attemptTime_ge (delay minTimeout pollInterval : Duration) (start : Time) (k : Nat) :
    start + (k : Int) ≤ attemptTime delay minTimeout pollInterval start k := by
  induction k with
  | zero =>
    rw [attemptTime_zero]
    have : (0 : Int) ≤ max 0 delay := le_max_left _ _
    simp only [Duration, Time] at *
    omega
  | succ k ih =>
    have h := attemptTime_succ_gt delay minTimeout pollInterval start k
    simp only [Duration, Time] at *
    push_cast
    omega

theorem attemptTime_mono (delay minTimeout pollInterval : Duration) (start : Time) {i k : Nat}
    (h : i ≤ k) :
    attemptTime delay minTimeout pollInterval start i
      ≤ attemptTime delay minTimeout pollInterval start k := by
  induction k with
  | zero =>
    have : i = 0 := by omega
    subst this
    exact le_refl _
  | succ k ih =>
    rcases Nat.lt_or_ge i (k + 1) with hlt | hge
    · have h1 := ih (by omega)
      have h2 := attemptTime_succ_gt delay minTimeout pollInterval start k
      linarith
    · have : i = k + 1 := by omega
      subst this
      exact le_refl _

end resource

/-! ## The refresh loop -/

namespace resource

theorem waitLoop_deadline {τ β : Type} (conf : StateChangeConf τ β) (deadline : Time) (fuel : Nat)
    (k : Tick τ) (h : deadline ≤ k.now) :
    waitLoop conf deadline fuel k = timedOutRun conf deadline k := by
  cases fuel with
  | zero => rfl
  | succ n => simp [waitLoop, h]

theorem waitLoop_step {τ β : Type} (conf : StateChangeConf τ β) (deadline start : Time) (s : τ)
    (fuel k : Nat) (ht : confTimes conf start k < deadline) (hp : stillPending conf start s k) :
    waitLoop conf deadline (fuel + 1) (tickAt conf start s k)
      = waitLoop conf deadline fuel (tickAt conf start s (k + 1)) := by
  rcases hr : conf.Refresh (confTimes conf start k)
      (stateAt conf.Refresh (confTimes conf start) s k) with ⟨⟨res, lbl, err⟩, s'⟩
  obtain ⟨h1, h2, h3⟩ := hp
  simp only [resultAt, hr] at h1 h2 h3
  subst h1
  have hnot : ¬ deadline ≤ confTimes conf start k := not_le.mpr ht
  simp only [waitLoop, tickAt, hr, hnot, h2, h3, if_false, if_true]
  simp only [labelAt, resultAt, stateAt, hr]
  rfl

theorem waitLoop_pending {τ β : Type} (conf : StateChangeConf τ β) (deadline start : Time) (s : τ)
    (k : Nat) :
    ∀ fuel : Nat,
      (∀ i, i < k → confTimes conf start i < deadline ∧ stillPending conf start s i) →
      waitLoop conf deadline (fuel + k) (tickAt conf start s 0)
        = waitLoop conf deadline fuel (tickAt conf start s k) := by
  induction k with
  | zero => intro fuel _; rfl
  | succ k ih =>
    intro fuel h
    have e : fuel + (k + 1) = (fuel + 1) + k := by omega
    rw [e, ih (fuel + 1) (fun i hi => h i (by omega))]
    exact waitLoop_step conf deadline start s fuel k (h k (by omega)).1 (h k (by omega)).2

end resource

/-! ## The wait as a whole -/

namespace resource

theorem wait_nonpositive {τ β : Type} (conf : StateChangeConf τ β) (start : Time) (s : τ)
    (hT : conf.Timeout ≤ 0) :
    conf.WaitForStateContext start s
      = { ret := (none, some (Error.timeoutError "" conf.Timeout conf.Target)),
          state := s, now := start } := by
  simp [StateChangeConf.WaitForStateContext, hT]

theorem wait_reach {τ β : Type} (conf : StateChangeConf τ β) (start : Time) (s : τ) (k : Nat)
    (hT : 0 < conf.Timeout)
    (h : ∀ i, i < k → confTimes conf start i < start + conf.Timeout ∧ stillPending conf start s i) :
    k ≤ conf.Timeout.toNat
      ∧ conf.WaitForStateContext start s
          = waitLoop conf (start + conf.Timeout) (conf.Timeout.toNat - k) (tickAt conf start s k) := by
  have hk : k ≤ conf.Timeout.toNat := by
    cases k with
    | zero => exact Nat.zero_le _
    | succ j =>
      have h1 := (h j (by omega)).1
      have h2 := attemptTime_ge conf.Delay conf.MinTimeout conf.PollInterval start j
      simp only [confTimes, Duration, Time] at *
      omega
  refine ⟨hk, ?_⟩
  have hnot : ¬ conf.Timeout ≤ 0 := not_le.mpr hT
  have e : conf.Timeout.toNat = (conf.Timeout.toNat - k) + k := by omega
  simp only [StateChangeConf.WaitForStateContext, hnot, if_false]
  rw [← waitLoop_pending conf (start + conf.Timeout) start s k (conf.Timeout.toNat - k) h, ← e]
  rfl

theorem wait_timeout {τ β : Type} (conf : StateChangeConf τ β) (start : Time) (s : τ) (k : Nat)
    (hT : 0 < conf.Timeout)
    (h : ∀ i, i < k → confTimes conf start i < start + conf.Timeout ∧ stillPending conf start s i)
    (hd : start + conf.Timeout ≤ confTimes conf start k) :
    conf.WaitForStateContext start s
      = timedOutRun conf (start + conf.Timeout) (tickAt conf start s k) := by
  rw [(wait_reach conf start s k hT h).2]
  exact waitLoop_deadline conf _ _ _ hd

theorem wait_attempt {τ β : Type} (conf : StateChangeConf τ β) (start : Time) (s : τ) (k : Nat)
    (h : ∀ i, i < k → stillPending conf start s i)
    (hd : confTimes conf start k < start + conf.Timeout) :
    ∃ n : Nat, conf.WaitForStateContext start s
      = waitLoop conf (start + conf.Timeout) (n + 1) (tickAt conf start s k) := by
  have h0 := attemptTime_ge conf.Delay conf.MinTimeout conf.PollInterval start k
  have hT : 0 < conf.Timeout := by
    simp only [confTimes, Duration, Time] at *
    omega
  have hall : ∀ i, i < k →
      confTimes conf start i < start + conf.Timeout ∧ stillPending conf start s i := by
    intro i hi
    refine ⟨lt_of_le_of_lt ?_ hd, h i hi⟩
    exact attemptTime_mono conf.Delay conf.MinTimeout conf.PollInterval start (Nat.le_of_lt hi)
  obtain ⟨_, hw⟩ := wait_reach conf start s k hT hall
  have hlt : k < conf.Timeout.toNat := by
    simp only [confTimes, Duration, Time] at *
    omega
  refine ⟨conf.Timeout.toNat - k - 1, ?_⟩
  rw [hw]
  congr 1
  omega

end resource

/-! ## `RetryContext` -/

namespace tfresource

open resource

theorem retryConf_Timeout {σ : Type} (timeout : Duration) (f : RetryFunc σ)
    (optFns : List OptionsFunc) : (retryConf timeout f optFns).Timeout = timeout := by
  simp only [retryConf, Options.Apply]
  split_ifs <;> rfl

theorem retryConf_Target {σ : Type} (timeout : Duration) (f : RetryFunc σ)
    (optFns : List OptionsFunc) : (retryConf timeout f optFns).Target = ["success"] := by
  simp only [retryConf, Options.Apply]
  split_ifs <;> rfl

theorem retryConf_Pending {σ : Type} (timeout : Duration) (f : RetryFunc σ)
    (optFns : List OptionsFunc) : (retryConf timeout f optFns).Pending = ["retryableerror"] := by
  simp only [retryConf, Options.Apply]
  split_ifs <;> rfl

theorem retryConf_Refresh {σ : Type} (timeout : Duration) (f : RetryFunc σ)
    (optFns : List OptionsFunc) : (retryConf timeout f optFns).Refresh = retryRefresh f := by
  simp only [retryConf, Options.Apply]
  split_ifs <;> rfl

theorem retryRefresh_eq {σ : Type} (f : RetryFunc σ) (now : Time) (s : σ) (c : Option Error) :
    retryRefresh f now (s, c)
      = (refreshOf (f now s).1,
          ((f now s).2, match (f now s).1 with
            | none => none
            | some rerr => rerr.Err)) := by
  rcases h : f now s with ⟨_ | rerr, s'⟩
  · simp [retryRefresh, refreshOf, h]
  · by_cases hr : rerr.Retryable = true <;> simp [retryRefresh, refreshOf, h, hr]

theorem retry_stateAt {σ : Type} (f : RetryFunc σ) (times : Nat → Time) (s : σ) (k : Nat) :
    stateAt (retryRefresh f) times (s, none) k
      = (stateAt f times s k, resultErrAt f times s k) := by
  induction k with
  | zero => rfl
  | succ k ih =>
    simp only [stateAt, ih, retryRefresh_eq, resultErrAt, resultAt]

theorem retry_resultAt {σ : Type} (f : RetryFunc σ) (times : Nat → Time) (s : σ) (k : Nat) :
    resultAt (retryRefresh f) times (s, none) k = refreshOf (resultAt f times s k) := by
  simp only [resultAt, retry_stateAt, retryRefresh_eq]

theorem retry_stillPending {σ : Type} (timeout : Duration) (f : RetryFunc σ)
    (optFns : List OptionsFunc) (now : Time) (s : σ) (i : Nat)
    (h : ∃ rerr, resultAt f (retryTimes timeout f optFns now) s i = some rerr
      ∧ rerr.Retryable = true) :
    stillPending (retryConf timeout f optFns) now (s, none) i := by
  obtain ⟨rerr, h1, h2⟩ := h
  have e : resultAt (retryConf timeout f optFns).Refresh
      (confTimes (retryConf timeout f optFns) now) (s, none) i
      = (some 42, "retryableerror", none) := by
    rw [retryConf_Refresh, retry_resultAt]
    have h1' : resultAt f (confTimes (retryConf timeout f optFns) now) s i = some rerr := h1
    simp [h1', refreshOf, h2]
  simp only [stillPending, e, retryConf_Target, retryConf_Pending]
  decide

theorem retry_labelAt {σ : Type} (timeout : Duration) (f : RetryFunc σ)
    (optFns : List OptionsFunc) (now : Time) (s : σ) (k : Nat)
    (h : ∀ i, i < k → ∃ rerr, resultAt f (retryTimes timeout f optFns now) s i = some rerr
      ∧ rerr.Retryable = true) :
    labelAt (retryConf timeout f optFns) now (s, none) k = retryLabel k := by
  cases k with
  | zero => rfl
  | succ j =>
    obtain ⟨rerr, h1, h2⟩ := h j (by omega)
    have h1' : resultAt f (confTimes (retryConf timeout f optFns) now) s j = some rerr := h1
    simp only [labelAt]
    rw [retryConf_Refresh, retry_resultAt, h1']
    simp [refreshOf, h2, retryLabel]

end tfresource

namespace tfresource

open resource

theorem retryContext_nonpositive {σ : Type} (timeout : Duration) (f : RetryFunc σ)
    (optFns : List OptionsFunc) (now : Time) (s : σ) (hT : timeout ≤ 0) :
    RetryContext timeout f optFns now s
      = { ret := some (Error.timeoutError "" timeout ["success"]), state := s, now := now } := by
  have hT' : (retryConf timeout f optFns).Timeout ≤ 0 := by
    rw [retryConf_Timeout]
    exact hT
  simp only [RetryContext, retryWait, wait_nonpositive _ now (s, none) hT', retryConf_Timeout,
    retryConf_Target]

theorem retryWait_attempt {σ : Type} (timeout : Duration) (f : RetryFunc σ)
    (optFns : List OptionsFunc) (now : Time) (s : σ) (k : Nat)
    (h : ∀ i, i < k → ∃ rerr, resultAt f (retryTimes timeout f optFns now) s i = some rerr
      ∧ rerr.Retryable = true)
    (ht : retryTimes timeout f optFns now k < now + timeout)
    (hk : ∀ rerr, resultAt f (retryTimes timeout f optFns now) s k = some rerr →
      rerr.Retryable = false) :
    retryWait timeout f optFns now s
      = { ret := ((refreshOf (resultAt f (retryTimes timeout f optFns now) s k)).1,
            match resultAt f (retryTimes timeout f optFns now) s k with
            | none => none
            | some rerr =>
              match rerr.Err with
              | some err => some err
              | none => some (Error.unexpectedStateError "quit" ["success"])),
          state := (stateAt f (retryTimes timeout f optFns now) s (k + 1),
            resultErrAt f (retryTimes timeout f optFns now) s (k + 1)),
          now := retryTimes timeout f optFns now k } := by
  have ht' : confTimes (retryConf timeout f optFns) now k
      < now + (retryConf timeout f optFns).Timeout := by
    rw [retryConf_Timeout]
    exact ht
  obtain ⟨n, hn⟩ := wait_attempt (retryConf timeout f optFns) now (s, none) k
    (fun i hi => retry_stillPending timeout f optFns now s i (h i hi)) ht'
  have hnot : ¬ now + (retryConf timeout f optFns).Timeout
      ≤ confTimes (retryConf timeout f optFns) now k := not_le.mpr ht'
  have hst : stateAt (retryRefresh f) (confTimes (retryConf timeout f optFns) now) (s, none) k
      = (stateAt f (confTimes (retryConf timeout f optFns) now) s k,
          resultErrAt f (confTimes (retryConf timeout f optFns) now) s k) := retry_stateAt _ _ _ _
  simp only [retryWait, hn, waitLoop, tickAt, hnot, if_false, retryConf_Refresh, hst,
    retryRefresh_eq, retryTimes, retryConf_Target, retryConf_Pending]
  rcases hr : f (confTimes (retryConf timeout f optFns) now k)
      (stateAt f (confTimes (retryConf timeout f optFns) now) s k) with ⟨_ | rerr, s'⟩
  · simp [refreshOf, resultAt, stateAt, resultErrAt, hr]
  · have hfalse : rerr.Retryable = false := hk rerr (by simp [retryTimes, resultAt, hr])
    rcases he : rerr.Err with _ | err
    · simp [refreshOf, resultAt, stateAt, resultErrAt, hr, hfalse, he]
    · simp [refreshOf, resultAt, stateAt, resultErrAt, hr, hfalse, he]

end tfresource

namespace tfresource

open resource

theorem retryWait_timeout {σ : Type} (timeout : Duration) (f : RetryFunc σ)
    (optFns : List OptionsFunc) (now : Time) (s : σ) (k : Nat) (hT : 0 < timeout)
    (h : ∀ i, i < k → ∃ rerr, resultAt f (retryTimes timeout f optFns now) s i = some rerr
      ∧ rerr.Retryable = true)
    (hlt : ∀ i, i < k → retryTimes timeout f optFns now i < now + timeout)
    (hd : now + timeout ≤ retryTimes timeout f optFns now k) :
    retryWait timeout f optFns now s
      = { ret := (none, some (Error.timeoutError (retryLabel k) timeout ["success"])),
          state := (stateAt f (retryTimes timeout f optFns now) s k,
            resultErrAt f (retryTimes timeout f optFns now) s k),
          now := now + timeout } := by
  have hT' : 0 < (retryConf timeout f optFns).Timeout := by
    rw [retryConf_Timeout]
    exact hT
  have hall : ∀ i, i < k →
      confTimes (retryConf timeout f optFns) now i < now + (retryConf timeout f optFns).Timeout
        ∧ stillPending (retryConf timeout f optFns) now (s, none) i := by
    intro i hi
    refine ⟨?_, retry_stillPending timeout f optFns now s i (h i hi)⟩
    rw [retryConf_Timeout]
    exact hlt i hi
  have hd' : now + (retryConf timeout f optFns).Timeout
      ≤ confTimes (retryConf timeout f optFns) now k := by
    rw [retryConf_Timeout]
    exact hd
  have hst : stateAt (retryRefresh f) (confTimes (retryConf timeout f optFns) now) (s, none) k
      = (stateAt f (confTimes (retryConf timeout f optFns) now) s k,
          resultErrAt f (confTimes (retryConf timeout f optFns) now) s k) := retry_stateAt _ _ _ _
  rw [retryWait, wait_timeout _ now (s, none) k hT' hall hd']
  simp only [timedOutRun, tickAt, retry_labelAt timeout f optFns now s k h, retryConf_Timeout,
    retryConf_Target, retryConf_Refresh, hst, retryTimes]

theorem retryContext_success {σ : Type} (timeout : Duration) (f : RetryFunc σ)
    (optFns : List OptionsFunc) (now : Time) (s : σ) (k : Nat)
    (h : ∀ i, i < k → ∃ rerr, resultAt f (retryTimes timeout f optFns now) s i = some rerr
      ∧ rerr.Retryable = true)
    (ht : retryTimes timeout f optFns now k < now + timeout)
    (hk : resultAt f (retryTimes timeout f optFns now) s k = none) :
    RetryContext timeout f optFns now s
      = { ret := none, state := stateAt f (retryTimes timeout f optFns now) s (k + 1),
          now := retryTimes timeout f optFns now k } := by
  have hw := retryWait_attempt timeout f optFns now s k h ht (by simp [hk])
  simp only [RetryContext, hw, resultErrAt, hk]

theorem retryContext_quit {σ : Type} (timeout : Duration) (f : RetryFunc σ)
    (optFns : List OptionsFunc) (now : Time) (s : σ) (k : Nat) (e : Error)
    (h : ∀ i, i < k → ∃ rerr, resultAt f (retryTimes timeout f optFns now) s i = some rerr
      ∧ rerr.Retryable = true)
    (ht : retryTimes timeout f optFns now k < now + timeout)
    (hk : resultAt f (retryTimes timeout f optFns now) s k = some (NonRetryableError (some e))) :
    RetryContext timeout f optFns now s
      = { ret := some e, state := stateAt f (retryTimes timeout f optFns now) s (k + 1),
          now := retryTimes timeout f optFns now k } := by
  have hw := retryWait_attempt timeout f optFns now s k h ht (by
    intro rerr hr
    rw [hk] at hr
    cases hr
    rfl)
  simp only [RetryContext, hw, resultErrAt, hk, NonRetryableError]

theorem retryContext_timeout {σ : Type} (timeout : Duration) (f : RetryFunc σ)
    (optFns : List OptionsFunc) (now : Time) (s : σ) (k : Nat) (hT : 0 < timeout)
    (h : ∀ i, i < k → ∃ rerr, resultAt f (retryTimes timeout f optFns now) s i = some rerr
      ∧ rerr.Retryable = true)
    (hlt : ∀ i, i < k → retryTimes timeout f optFns now i < now + timeout)
    (hd : now + timeout ≤ retryTimes timeout f optFns now k) :
    RetryContext timeout f optFns now s
      = { ret :=
            match resultErrAt f (retryTimes timeout f optFns now) s k with
            | some e => some e
            | none => some (Error.timeoutError (retryLabel k) timeout ["success"]),
          state := stateAt f (retryTimes timeout f optFns now) s k,
          now := now + timeout } := by
  have hw := retryWait_timeout timeout f optFns now s k hT h hlt hd
  simp only [RetryContext, hw]
  cases resultErrAt f (retryTimes timeout f optFns now) s k <;> rfl

end tfresource

/-! ## `RetryWhenContext` -/

namespace tfresource

open resource

theorem recorded_stateAt {σ ρ : Type} (g : Time → σ → ρ × σ) (times : Nat → Time) (s : σ)
    (log : List Time) (k : Nat) :
    stateAt (recorded g) times (s, log) k
      = (stateAt g times s k, log ++ (List.range k).map times) := by
  induction k with
  | zero => simp [stateAt]
  | succ k ih => simp [stateAt, ih, recorded, List.range_succ]

theorem recorded_resultAt {σ ρ : Type} (g : Time → σ → ρ × σ) (times : Nat → Time) (s : σ)
    (log : List Time) (k : Nat) :
    resultAt (recorded g) times (s, log) k = resultAt g times s k := by
  simp [resultAt, recorded_stateAt, recorded]

theorem when_times {σ α : Type} (timeout : Duration) (f : Operation σ α) (p : Retryable)
    (now : Time) : retryTimes timeout (retryWhenFunc f p) [] now = whenTimes now := rfl

theorem retryWhenFunc_eq {σ α : Type} (f : Operation σ α) (p : Retryable) (now : Time) (s : σ)
    (o : Option α) :
    retryWhenFunc f p now (s, o) = (classify p (f now s).1.2, ((f now s).2, (f now s).1.1)) := by
  rcases h : f now s with ⟨⟨v, err⟩, s'⟩
  rcases hp : p err with ⟨_ | _, _ | e⟩ <;> simp [retryWhenFunc, classify, h, hp]

theorem when_stateAt {σ α : Type} (f : Operation σ α) (p : Retryable) (times : Nat → Time)
    (s : σ) (k : Nat) :
    stateAt (retryWhenFunc f p) times (s, none) k
      = (stateAt f times s k, outputAt f times s k) := by
  induction k with
  | zero => rfl
  | succ k ih => simp only [stateAt, ih, retryWhenFunc_eq, outputAt, resultAt]

theorem when_resultAt {σ α : Type} (f : Operation σ α) (p : Retryable) (times : Nat → Time)
    (s : σ) (k : Nat) :
    resultAt (retryWhenFunc f p) times (s, none) k = classify p (resultAt f times s k).2 := by
  simp only [resultAt, when_stateAt, retryWhenFunc_eq]

theorem classify_retry (p : Retryable) (err : Option Error) (h : (p err).1 = true) :
    classify p err = some (RetryableError (p err).2) := by
  rcases hp : p err with ⟨b, e⟩
  rw [hp] at h
  simp only at h
  subst h
  simp [classify, hp]

theorem classify_stop (p : Retryable) (err : Option Error) (e : Option Error)
    (h : p err = (false, e)) :
    classify p err = e.map (fun x => NonRetryableError (some x)) := by
  cases e <;> simp [classify, h]

theorem when_retryable {σ α : Type} (timeout : Duration) (f : Operation σ α) (p : Retryable)
    (now : Time) (s : σ) (k : Nat)
    (h : ∀ i, i < k → (p (resultAt f (whenTimes now) s i).2).1 = true) :
    ∀ i, i < k → ∃ rerr,
      resultAt (retryWhenFunc f p) (retryTimes timeout (retryWhenFunc f p) [] now) (s, none) i
        = some rerr ∧ rerr.Retryable = true := by
  intro i hi
  refine ⟨RetryableError (p (resultAt f (whenTimes now) s i).2).2, ?_, rfl⟩
  rw [when_times, when_resultAt, classify_retry p _ (h i hi)]

theorem when_resultErrAt {σ α : Type} (f : Operation σ α) (p : Retryable) (times : Nat → Time)
    (s : σ) (k : Nat) (h : ∀ i, i < k → (p (resultAt f times s i).2).1 = true) :
    resultErrAt (retryWhenFunc f p) times (s, none) k = reasonAt p f times s k := by
  cases k with
  | zero => rfl
  | succ j =>
    simp only [resultErrAt, when_resultAt, classify_retry p _ (h j (by omega)), reasonAt,
      RetryableError]

end tfresource

namespace tfresource

open resource

theorem loop_nonpositive {σ α : Type} (timeout : Duration) (f : Operation σ α) (p : Retryable)
    (now : Time) (s : σ) (hT : timeout ≤ 0) :
    retryWhenLoop timeout f p now s
      = { ret := some (Error.timeoutError "" timeout ["success"]), state := (s, none),
          now := now } :=
  retryContext_nonpositive timeout (retryWhenFunc f p) [] now (s, none) hT

theorem loop_success {σ α : Type} (timeout : Duration) (f : Operation σ α) (p : Retryable)
    (now : Time) (s : σ) (k : Nat)
    (h : ∀ i, i < k → (p (resultAt f (whenTimes now) s i).2).1 = true)
    (ht : whenTimes now k < now + timeout)
    (hk : p (resultAt f (whenTimes now) s k).2 = (false, none)) :
    retryWhenLoop timeout f p now s
      = { ret := none,
          state := (stateAt f (whenTimes now) s (k + 1), (resultAt f (whenTimes now) s k).1),
          now := whenTimes now k } := by
  have hr := retryContext_success timeout (retryWhenFunc f p) [] now (s, none) k
    (when_retryable timeout f p now s k h) ht (by
      rw [when_times, when_resultAt, classify_stop p _ none hk]
      rfl)
  rw [when_times, when_stateAt] at hr
  exact hr

theorem loop_quit {σ α : Type} (timeout : Duration) (f : Operation σ α) (p : Retryable)
    (now : Time) (s : σ) (k : Nat) (e : Error)
    (h : ∀ i, i < k → (p (resultAt f (whenTimes now) s i).2).1 = true)
    (ht : whenTimes now k < now + timeout)
    (hk : p (resultAt f (whenTimes now) s k).2 = (false, some e)) :
    retryWhenLoop timeout f p now s
      = { ret := some e,
          state := (stateAt f (whenTimes now) s (k + 1), (resultAt f (whenTimes now) s k).1),
          now := whenTimes now k } := by
  have hr := retryContext_quit timeout (retryWhenFunc f p) [] now (s, none) k e
    (when_retryable timeout f p now s k h) ht (by
      rw [when_times, when_resultAt, classify_stop p _ (some e) hk]
      rfl)
  rw [when_times, when_stateAt] at hr
  exact hr

theorem loop_timeout {σ α : Type} (timeout : Duration) (f : Operation σ α) (p : Retryable)
    (now : Time) (s : σ) (k : Nat) (hT : 0 < timeout)
    (h : ∀ i, i < k → (p (resultAt f (whenTimes now) s i).2).1 = true)
    (hlt : ∀ i, i < k → whenTimes now i < now + timeout)
    (hd : now + timeout ≤ whenTimes now k) :
    retryWhenLoop timeout f p now s
      = { ret :=
            match reasonAt p f (whenTimes now) s k with
            | some e => some e
            | none => some (Error.timeoutError (retryLabel k) timeout ["success"]),
          state := (stateAt f (whenTimes now) s k, outputAt f (whenTimes now) s k),
          now := now + timeout } := by
  have hr := retryContext_timeout timeout (retryWhenFunc f p) [] now (s, none) k hT
    (when_retryable timeout f p now s k h) hlt hd
  rw [when_times, when_stateAt, when_resultErrAt f p (whenTimes now) s k h] at hr
  exact hr

theorem when_timedOut {σ α : Type} (timeout : Duration) (f : Operation σ α) (p : Retryable)
    (now : Time) (s : σ) (h : TimedOut (retryWhenLoop timeout f p now s).ret = true) :
    RetryWhenContext timeout f p now s
      = lastChance f (retryWhenLoop timeout f p now s).now
          (retryWhenLoop timeout f p now s).state.1 := by
  simp only [RetryWhenContext, h, if_true, lastChance]

theorem when_notTimedOut {σ α : Type} (timeout : Duration) (f : Operation σ α) (p : Retryable)
    (now : Time) (s : σ) (h : TimedOut (retryWhenLoop timeout f p now s).ret = false) :
    RetryWhenContext timeout f p now s
      = { ret :=
            match (retryWhenLoop timeout f p now s).ret with
            | some err => (none, some err)
            | none => ((retryWhenLoop timeout f p now s).state.2, none),
          state := (retryWhenLoop timeout f p now s).state.1,
          now := (retryWhenLoop timeout f p now s).now } := by
  simp only [RetryWhenContext, h]
  cases (retryWhenLoop timeout f p now s).ret <;> rfl

theorem when_success {σ α : Type} (timeout : Duration) (f : Operation σ α) (p : Retryable)
    (now : Time) (s : σ) (k : Nat)
    (h : ∀ i, i < k → (p (resultAt f (whenTimes now) s i).2).1 = true)
    (ht : whenTimes now k < now + timeout)
    (hk : p (resultAt f (whenTimes now) s k).2 = (false, none)) :
    RetryWhenContext timeout f p now s
      = { ret := ((resultAt f (whenTimes now) s k).1, none),
          state := stateAt f (whenTimes now) s (k + 1), now := whenTimes now k } := by
  have hl := loop_success timeout f p now s k h ht hk
  rw [when_notTimedOut timeout f p now s (by rw [hl]; rfl), hl]

theorem when_quit {σ α : Type} (timeout : Duration) (f : Operation σ α) (p : Retryable)
    (now : Time) (s : σ) (k : Nat) (e : Error)
    (h : ∀ i, i < k → (p (resultAt f (whenTimes now) s i).2).1 = true)
    (ht : whenTimes now k < now + timeout)
    (hk : p (resultAt f (whenTimes now) s k).2 = (false, some e))
    (hn : TimedOut (some e) = false) :
    RetryWhenContext timeout f p now s
      = { ret := (none, some e),
          state := stateAt f (whenTimes now) s (k + 1), now := whenTimes now k } := by
  have hl := loop_quit timeout f p now s k e h ht hk
  rw [when_notTimedOut timeout f p now s (by rw [hl]; exact hn), hl]

theorem when_quit_timedOut {σ α : Type} (timeout : Duration) (f : Operation σ α) (p : Retryable)
    (now : Time) (s : σ) (k : Nat) (e : Error)
    (h : ∀ i, i < k → (p (resultAt f (whenTimes now) s i).2).1 = true)
    (ht : whenTimes now k < now + timeout)
    (hk : p (resultAt f (whenTimes now) s k).2 = (false, some e))
    (hn : TimedOut (some e) = true) :
    RetryWhenContext timeout f p now s
      = lastChance f (whenTimes now k) (stateAt f (whenTimes now) s (k + 1)) := by
  have hl := loop_quit timeout f p now s k e h ht hk
  rw [when_timedOut timeout f p now s (by rw [hl]; exact hn), hl]

theorem when_nonpositive {σ α : Type} (timeout : Duration) (f : Operation σ α) (p : Retryable)
    (now : Time) (s : σ) (hT : timeout ≤ 0) :
    RetryWhenContext timeout f p now s = lastChance f now s := by
  have hl := loop_nonpositive timeout f p now s hT
  rw [when_timedOut timeout f p now s (by rw [hl]; rfl), hl]

theorem when_timeout {σ α : Type} (timeout : Duration) (f : Operation σ α) (p : Retryable)
    (now : Time) (s : σ) (k : Nat) (hT : 0 < timeout)
    (h : ∀ i, i < k → (p (resultAt f (whenTimes now) s i).2).1 = true)
    (hlt : ∀ i, i < k → whenTimes now i < now + timeout)
    (hd : now + timeout ≤ whenTimes now k) :
    RetryWhenContext timeout f p now s
      = match reasonAt p f (whenTimes now) s k with
        | some e =>
          if TimedOut (some e) then lastChance f (now + timeout) (stateAt f (whenTimes now) s k)
          else { ret := (none, some e), state := stateAt f (whenTimes now) s k,
                 now := now + timeout }
        | none => lastChance f (now + timeout) (stateAt f (whenTimes now) s k) := by
  have hl := loop_timeout timeout f p now s k hT h hlt hd
  rcases hr : reasonAt p f (whenTimes now) s k with _ | e
  · rw [hr] at hl
    rw [when_timedOut timeout f p now s (by rw [hl]; rfl), hl]
  · rw [hr] at hl
    by_cases hto : TimedOut (some e) = true
    · rw [when_timedOut timeout f p now s (by rw [hl]; exact hto), hl]
      simp [hto]
    · have hto' : TimedOut (some e) = false := by simpa using hto
      rw [when_notTimedOut timeout f p now s (by rw [hl]; exact hto'), hl]
      simp [hto']

end tfresource

namespace tfresource

open resource

theorem whenTimes_zero (now : Time) : whenTimes now 0 = now := by
  simp [whenTimes, attemptTime]

theorem reasonAt_recorded {σ α : Type} (p : Retryable) (f : Operation σ α) (times : Nat → Time)
    (s : σ) (log : List Time) (k : Nat) :
    reasonAt p (recorded f) times (s, log) k = reasonAt p f times s k := by
  cases k with
  | zero => rfl
  | succ j => simp only [reasonAt, recorded_resultAt]

theorem when_stop {σ α : Type} (timeout : Duration) (f : Operation σ α) (p : Retryable)
    (now : Time) (s : σ) (k : Nat) (e : Option Error)
    (h : ∀ i, i < k → (p (resultAt f (whenTimes now) s i).2).1 = true)
    (ht : whenTimes now k < now + timeout)
    (hk : p (resultAt f (whenTimes now) s k).2 = (false, e))
    (hn : TimedOut e = false) :
    RetryWhenContext timeout f p now s
      = { ret := returned (resultAt f (whenTimes now) s k).1 e,
          state := stateAt f (whenTimes now) s (k + 1), now := whenTimes now k } := by
  cases e with
  | none => exact when_success timeout f p now s k h ht hk
  | some x => exact when_quit timeout f p now s k x h ht hk hn

theorem when_stop_recorded {σ α : Type} (timeout : Duration) (f : Operation σ α) (p : Retryable)
    (now : Time) (s : σ) (k : Nat) (e : Option Error)
    (h : ∀ i, i < k → (p (resultAt f (whenTimes now) s i).2).1 = true)
    (ht : whenTimes now k < now + timeout)
    (hk : p (resultAt f (whenTimes now) s k).2 = (false, e))
    (hn : TimedOut e = false) :
    RetryWhenContext timeout (recorded f) p now (s, [])
      = { ret := returned (resultAt f (whenTimes now) s k).1 e,
          state := (stateAt f (whenTimes now) s (k + 1),
            (List.range (k + 1)).map (whenTimes now)),
          now := whenTimes now k } := by
  have hr := when_stop timeout (recorded f) p now (s, []) k e
    (fun i hi => by rw [recorded_resultAt]; exact h i hi) ht
    (by rw [recorded_resultAt]; exact hk) hn
  rw [recorded_resultAt, recorded_stateAt] at hr
  simpa using hr

end tfresource

/-! ## The claims -/

namespace tfresource

open resource

/-- C1, the claim as stated fails twice. An operation whose error is the
timeout error of an inner wait is classified not retryable by `neverRetry`, yet
`RetryWhenContext` calls it twice. With a timeout of zero the only call is the
last-chance call, whose error is returned as it is although the predicate of
`RetryUntilNotFoundContext` gives the effective error nil for it. -/
theorem C1_counterexample :
    (neverRetry (opAlways (none, some errInnerTimeout) 0 ()).1.2 = (false, some errInnerTimeout)
      ∧ (RetryWhenContext (5 * Second) (recorded (opAlways (none, some errInnerTimeout)))
          neverRetry 0 ((), [])).state.2 = [0, 0]
      ∧ (RetryWhenContext (5 * Second) (recorded (opAlways (none, some errInnerTimeout)))
          neverRetry 0 ((), [])).state.2.length ≠ 1)
    ∧ (untilNotFound (opAlways (none, some Error.notFoundError) 0 ()).1.2 = (false, none)
      ∧ (RetryWhenContext 0 (recorded (opAlways (none, some Error.notFoundError)))
          untilNotFound 0 ((), [])).ret.2 = some Error.notFoundError
      ∧ (RetryWhenContext 0 (recorded (opAlways (none, some Error.notFoundError)))
          untilNotFound 0 ((), [])).ret.2 ≠ none) := by
  decide

/-- C1, amended. For every operation `f` and predicate `p`, with a positive
timeout: if `p` applied to the error of the first result of `f` gives
`(false, e)` and `e` is not a timed-out error, then `RetryWhenContext` returns
with the error `e`, having called `f` exactly once, at the instant it was
entered, and it returns at that instant. -/
theorem C1_not_retryable_first_result {σ α : Type} (timeout : Duration) (f : Operation σ α)
    (p : Retryable) (now : Time) (s : σ) (e : Option Error)
    (hT : 0 < timeout) (hp : p (f now s).1.2 = (false, e)) (hn : TimedOut e = false) :
    (RetryWhenContext timeout (recorded f) p now (s, [])).ret.2 = e
      ∧ (RetryWhenContext timeout (recorded f) p now (s, [])).state = ((f now s).2, [now])
      ∧ (RetryWhenContext timeout (recorded f) p now (s, [])).now = now := by
  have ht : whenTimes now 0 < now + timeout := by
    rw [whenTimes_zero]
    linarith
  have hk : p (resultAt f (whenTimes now) s 0).2 = (false, e) := by
    simp only [resultAt, stateAt, whenTimes_zero]
    exact hp
  have hr := when_stop_recorded timeout f p now s 0 e (fun i hi => absurd hi (Nat.not_lt_zero i))
    ht hk hn
  rw [hr]
  refine ⟨?_, ?_, whenTimes_zero now⟩
  · cases e <;> rfl
  · simp [stateAt, whenTimes_zero, List.range_succ]

/-- C1, amended, at a concrete input: an operation that always fails with
`errBoom` and a value, under `neverRetry` and a timeout of five seconds. -/
theorem C1_not_retryable_first_result_witness :
    (RetryWhenContext (5 * Second) (recorded (opAlways (some 7, some errBoom))) neverRetry 0
        ((), [])).ret.2 = some errBoom
      ∧ (RetryWhenContext (5 * Second) (recorded (opAlways (some 7, some errBoom))) neverRetry 0
        ((), [])).state = ((opAlways (some 7, some errBoom) 0 ()).2, [0])
      ∧ (RetryWhenContext (5 * Second) (recorded (opAlways (some 7, some errBoom))) neverRetry 0
        ((), [])).now = 0 :=
  C1_not_retryable_first_result (5 * Second) (opAlways (some 7, some errBoom)) neverRetry 0 ()
    (some errBoom) (by decide) (by decide) (by decide)

end tfresource

namespace tfresource

open resource

/-- C2, the claim as stated fails twice. An attempt that yields the value 7
with the error `errBoom`, classified `(false, errBoom)`, makes
`RetryWhenContext` return a nil value with that error, not the value 7. An
attempt that yields the value 7 with the timeout error of an inner wait,
classified not retryable, is followed by a last-chance call whose result is
returned instead. -/
theorem C2_counterexample :
    (neverRetry (opAlways (some 7, some errBoom) 0 ()).1.2 = (false, some errBoom)
      ∧ (RetryWhenContext (5 * Second) (opAlways (some 7, some errBoom)) neverRetry 0 ()).ret
          = (none, some errBoom)
      ∧ (RetryWhenContext (5 * Second) (opAlways (some 7, some errBoom)) neverRetry 0 ()).ret
          ≠ (some 7, some errBoom))
    ∧ (neverRetry (opSwitch 1 (some 7, some errInnerTimeout) (some 8, none) 0 0).1.2
          = (false, some errInnerTimeout)
      ∧ (RetryWhenContext (5 * Second) (opSwitch 1 (some 7, some errInnerTimeout) (some 8, none))
          neverRetry 0 0).ret = (some 8, none)
      ∧ (RetryWhenContext (5 * Second) (opSwitch 1 (some 7, some errInnerTimeout) (some 8, none))
          neverRetry 0 0).ret ≠ (some 7, some errInnerTimeout)) := by
  decide

/-- C2, amended. For every operation `f` and predicate `p`: when the attempt
numbered `k` of the retry loop, made before the timeout after `k` retryable
results, yields `(v, err)` with `p err = (false, e)` and `e` is not a
timed-out error, `RetryWhenContext` stops there, after `k + 1` calls of `f`,
and returns `(v, nil)` when `e` is nil and `(nil, e)` when `e` is not nil: the
value is passed on only with a nil error. -/
theorem C2_stops_with_effective_error {σ α : Type} (timeout : Duration) (f : Operation σ α)
    (p : Retryable) (now : Time) (s : σ) (k : Nat) (e : Option Error)
    (h : ∀ i, i < k → (p (resultAt f (whenTimes now) s i).2).1 = true)
    (ht : whenTimes now k < now + timeout)
    (hk : p (resultAt f (whenTimes now) s k).2 = (false, e))
    (hn : TimedOut e = false) :
    RetryWhenContext timeout (recorded f) p now (s, [])
        = { ret := returned (resultAt f (whenTimes now) s k).1 e,
            state := (stateAt f (whenTimes now) s (k + 1),
              (List.range (k + 1)).map (whenTimes now)),
            now := whenTimes now k }
      ∧ returned (resultAt f (whenTimes now) s k).1 none
          = ((resultAt f (whenTimes now) s k).1, none)
      ∧ ∀ x : Error, returned (resultAt f (whenTimes now) s k).1 (some x) = (none, some x) :=
  ⟨when_stop_recorded timeout f p now s k e h ht hk hn, rfl, fun _ => rfl⟩

/-- C2, amended, at a concrete input: two throttled calls, then a call that
fails with the value 7 and `errBoom`, under a predicate that retries on AWS
throttling only. -/
theorem C2_stops_with_effective_error_witness :
    RetryWhenContext (5 * Second)
        (recorded (opSwitch 2 (none, some errThrottled) (some 7, some errBoom)))
        (fun err => if ErrCodeEquals err ["Throttling"] then (true, err) else (false, err)) 0
        (0, [])
      = { ret := (none, some errBoom), state := (3, [0, 200000000, 600000000]),
          now := 600000000 } :=
  (C2_stops_with_effective_error (5 * Second)
    (opSwitch 2 (none, some errThrottled) (some 7, some errBoom))
    (fun err => if ErrCodeEquals err ["Throttling"] then (true, err) else (false, err)) 0 0 2
    (some errBoom) (by decide) (by decide) (by decide) (by decide)).1

/-- C3. For every `k`: if the first `k` results of `f` are classified retryable
by the predicate, the result numbered `k + 1`, `(v, err)`, is classified
`(false, nil)`, and the timeout has not expired at the instant of attempt
`k + 1`, then `RetryWhenContext` returns `(v, nil)` after exactly `k + 1` calls
of `f`, made at the instants of the schedule. -/
theorem C3_retry_until_success {σ α : Type} (timeout : Duration) (f : Operation σ α)
    (p : Retryable) (now : Time) (s : σ) (k : Nat)
    (h : ∀ i, i < k → (p (resultAt f (whenTimes now) s i).2).1 = true)
    (hk : p (resultAt f (whenTimes now) s k).2 = (false, none))
    (ht : whenTimes now k < now + timeout) :
    RetryWhenContext timeout (recorded f) p now (s, [])
        = { ret := ((resultAt f (whenTimes now) s k).1, none),
            state := (stateAt f (whenTimes now) s (k + 1),
              (List.range (k + 1)).map (whenTimes now)),
            now := whenTimes now k }
      ∧ (RetryWhenContext timeout (recorded f) p now (s, [])).state.2.length = k + 1 := by
  have hr := when_stop_recorded timeout f p now s k none h ht hk rfl
  refine ⟨hr, ?_⟩
  rw [hr]
  simp

/-- C3 at a concrete input: three throttled calls, then the value 8, with a
timeout of five seconds. -/
theorem C3_retry_until_success_witness :
    RetryWhenContext (5 * Second) (recorded (opSwitch 3 (none, some errThrottled) (some 8, none)))
        retryOnError 0 (0, [])
      = { ret := (some 8, none), state := (4, [0, 200000000, 600000000, 1400000000]),
          now := 1400000000 }
      ∧ (RetryWhenContext (5 * Second)
          (recorded (opSwitch 3 (none, some errThrottled) (some 8, none)))
          retryOnError 0 (0, [])).state.2.length = 3 + 1 :=
  C3_retry_until_success (5 * Second) (opSwitch 3 (none, some errThrottled) (some 8, none))
    retryOnError 0 0 3 (by decide) (by decide) (by decide)

/-- C4. Whenever the retry loop inside `RetryWhenContext` ends with an error
for which `TimedOut` holds, `RetryWhenContext` calls `f` exactly one more time,
at the instant and in the state the loop ended in, and returns the result of
that call: `(v, nil)` when the call returns `(v, nil)`, and the error of the
call, with a nil value, when it fails. -/
theorem C4_final_attempt_is_returned {σ α : Type} (timeout : Duration) (f : Operation σ α)
    (p : Retryable) (now : Time) (s : σ) (log : List Time)
    (h : TimedOut (retryWhenLoop timeout (recorded f) p now (s, log)).ret = true) :
    RetryWhenContext timeout (recorded f) p now (s, log)
      = { ret :=
            returned
              (f (retryWhenLoop timeout (recorded f) p now (s, log)).now
                (retryWhenLoop timeout (recorded f) p now (s, log)).state.1.1).1.1
              (f (retryWhenLoop timeout (recorded f) p now (s, log)).now
                (retryWhenLoop timeout (recorded f) p now (s, log)).state.1.1).1.2,
          state :=
            ((f (retryWhenLoop timeout (recorded f) p now (s, log)).now
                (retryWhenLoop timeout (recorded f) p now (s, log)).state.1.1).2,
              (retryWhenLoop timeout (recorded f) p now (s, log)).state.1.2
                ++ [(retryWhenLoop timeout (recorded f) p now (s, log)).now]),
          now := (retryWhenLoop timeout (recorded f) p now (s, log)).now } := by
  rw [when_timedOut timeout (recorded f) p now (s, log) h]
  simp only [lastChance, recorded, returned]
  cases (f (retryWhenLoop timeout (recorded f) p now (s, log)).now
    (retryWhenLoop timeout (recorded f) p now (s, log)).state.1.1).1.2 <;> rfl

/-- C4 at a concrete input: the first call fails with the timeout error of an
inner wait, which ends the retry loop with a timed-out error; the second call,
the last-chance one, returns the value 8. -/
theorem C4_final_attempt_is_returned_witness :
    RetryWhenContext (5 * Second)
        (recorded (opSwitch 1 (some 7, some errInnerTimeout) (some 8, none))) neverRetry 0 (0, [])
      = { ret := (some 8, none), state := (2, [0, 0]), now := 0 } :=
  C4_final_attempt_is_returned (5 * Second)
    (opSwitch 1 (some 7, some errInnerTimeout) (some 8, none)) neverRetry 0 0 [] (by decide)

end tfresource

namespace tfresource

open resource

/-- C5, the claim as stated fails. With a timeout of five seconds, the five
attempts made before the deadline all fail with a throttling error that the
predicate classifies retryable, the sixth attempt would be due after the
deadline, and a call of the operation at the deadline would succeed with the
value 7. `RetryWhenContext` makes no call after the deadline and returns the
last retryable error. -/
theorem C5_counterexample :
    (∀ i, i < 5 →
        whenTimes 0 i < 0 + 5 * Second
          ∧ (retryOnError (resultAt (opLate (5 * Second) errThrottled 7) (whenTimes 0) () i).2).1
              = true)
      ∧ 0 + 5 * Second ≤ whenTimes 0 5
      ∧ (opLate (5 * Second) errThrottled 7 (0 + 5 * Second) ()).1 = (some 7, none)
      ∧ RetryWhenContext (5 * Second) (recorded (opLate (5 * Second) errThrottled 7))
          retryOnError 0 ((), [])
        = { ret := (none, some errThrottled),
            state := ((), [0, 200000000, 600000000, 1400000000, 3000000000]),
            now := 5000000000 }
      ∧ (RetryWhenContext (5 * Second) (recorded (opLate (5 * Second) errThrottled 7))
          retryOnError 0 ((), [])).ret ≠ (some 7, none) := by
  decide

/-- C5, amended. For every operation `f` and predicate `p`: if the `k`
attempts of `f` made before the deadline are all classified retryable and the
next attempt would be due at the deadline or later, then what
`RetryWhenContext` does depends on the most recent reason the loop recorded.
When no reason was recorded (no attempt was made, or the last effective error
is nil) or the recorded reason is itself a timed-out error, it makes one final
call of `f` at the deadline and returns the result of that call, so a success
of that call is the overall result. When the recorded reason `e` is not a
timed-out error, it makes no further call and returns `(nil, e)`, the last
retryable error. -/
theorem C5_last_chance_only_when_timed_out {σ α : Type} (timeout : Duration)
    (f : Operation σ α) (p : Retryable) (now : Time) (s : σ) (k : Nat)
    (h : ∀ i, i < k → (p (resultAt f (whenTimes now) s i).2).1 = true)
    (hlt : ∀ i, i < k → whenTimes now i < now + timeout)
    (hd : now + timeout ≤ whenTimes now k) :
    RetryWhenContext timeout (recorded f) p now (s, [])
      = match reasonAt p f (whenTimes now) s k with
        | some e =>
          if TimedOut (some e) then
            lastChance (recorded f) (now + max 0 timeout)
              (stateAt f (whenTimes now) s k, (List.range k).map (whenTimes now))
          else
            { ret := (none, some e),
              state := (stateAt f (whenTimes now) s k, (List.range k).map (whenTimes now)),
              now := now + max 0 timeout }
        | none =>
          lastChance (recorded f) (now + max 0 timeout)
            (stateAt f (whenTimes now) s k, (List.range k).map (whenTimes now)) := by
  by_cases hT : 0 < timeout
  · have hmax : max 0 timeout = timeout := max_eq_right (le_of_lt hT)
    have hr := when_timeout timeout (recorded f) p now (s, []) k hT
      (fun i hi => by rw [recorded_resultAt]; exact h i hi) hlt hd
    rw [reasonAt_recorded, recorded_stateAt] at hr
    rw [hr, hmax]
    simp
  · have hT' : timeout ≤ 0 := not_lt.mp hT
    have hk : k = 0 := by
      cases k with
      | zero => rfl
      | succ j =>
        have h0 := hlt 0 (Nat.succ_pos j)
        rw [whenTimes_zero] at h0
        linarith
    subst hk
    have hmax : max 0 timeout = 0 := max_eq_left hT'
    rw [when_nonpositive timeout (recorded f) p now (s, []) hT', hmax]
    simp [reasonAt, stateAt]

/-- C5, amended, at a concrete input: the run of the counterexample, whose
recorded reason is a throttling error and not a timed-out error. -/
theorem C5_last_chance_only_when_timed_out_witness :
    RetryWhenContext (5 * Second) (recorded (opLate (5 * Second) errThrottled 7)) retryOnError 0
        ((), [])
      = { ret := (none, some errThrottled),
          state := ((), [0, 200000000, 600000000, 1400000000, 3000000000]),
          now := 5000000000 } :=
  C5_last_chance_only_when_timed_out (5 * Second) (opLate (5 * Second) errThrottled 7)
    retryOnError 0 () 5 (by decide) (by decide) (by decide)

end tfresource

namespace tfresource

open resource

theorem retryTimes_congr {σ τ : Type} (t t' : Duration) (f : RetryFunc σ) (g : RetryFunc τ)
    (optFns : List OptionsFunc) (now : Time) :
    retryTimes t f optFns now = retryTimes t' g optFns now := by
  simp only [retryTimes, confTimes, retryConf, Options.Apply]
  split_ifs <;> rfl

theorem retryWait_nonpositive {σ : Type} (timeout : Duration) (f : RetryFunc σ)
    (optFns : List OptionsFunc) (now : Time) (s : σ) (hT : timeout ≤ 0) :
    retryWait timeout f optFns now s
      = { ret := (none, some (Error.timeoutError "" timeout ["success"])), state := (s, none),
          now := now } := by
  have hT' : (retryConf timeout f optFns).Timeout ≤ 0 := by
    rw [retryConf_Timeout]
    exact hT
  simp only [retryWait, wait_nonpositive _ now (s, none) hT', retryConf_Timeout,
    retryConf_Target]

theorem retryTimes_zero_ge {σ : Type} (timeout : Duration) (f : RetryFunc σ)
    (optFns : List OptionsFunc) (now : Time) : now ≤ retryTimes timeout f optFns now 0 := by
  have h := attemptTime_ge (retryConf timeout f optFns).Delay (retryConf timeout f optFns).MinTimeout
    (retryConf timeout f optFns).PollInterval now 0
  simpa [retryTimes, confTimes] using h

/-- C6. When the wait run by `RetryContext` ends by timeout, that is after `k`
calls of `f` made before the deadline that all returned a retryable
`RetryError`, the next call being due at the deadline or later: the error of
the wait is its timeout error; if the most recent call recorded an error `e` in
`resultErr`, `RetryContext` returns `e`, which takes precedence over the error
of the wait; if no error was recorded, `RetryContext` returns the timeout error
of the wait. -/
theorem C6_recorded_error_takes_precedence {σ : Type} (timeout : Duration) (f : RetryFunc σ)
    (optFns : List OptionsFunc) (now : Time) (s : σ) (k : Nat)
    (h : ∀ i, i < k → ∃ rerr, resultAt f (retryTimes timeout f optFns now) s i = some rerr
      ∧ rerr.Retryable = true)
    (hlt : ∀ i, i < k → retryTimes timeout f optFns now i < now + timeout)
    (hd : now + timeout ≤ retryTimes timeout f optFns now k) :
    (retryWait timeout f optFns now s).ret.2
        = some (Error.timeoutError (retryLabel k) timeout ["success"])
      ∧ (∀ e : Error, resultErrAt f (retryTimes timeout f optFns now) s k = some e →
          (RetryContext timeout f optFns now s).ret = some e)
      ∧ (resultErrAt f (retryTimes timeout f optFns now) s k = none →
          (RetryContext timeout f optFns now s).ret
            = some (Error.timeoutError (retryLabel k) timeout ["success"])) := by
  by_cases hT : 0 < timeout
  · have hw := retryWait_timeout timeout f optFns now s k hT h hlt hd
    have hr := retryContext_timeout timeout f optFns now s k hT h hlt hd
    refine ⟨by rw [hw], ?_, ?_⟩
    · intro e he
      rw [hr, he]
    · intro he
      rw [hr, he]
  · have hT' : timeout ≤ 0 := not_lt.mp hT
    have hk : k = 0 := by
      cases k with
      | zero => rfl
      | succ j =>
        have h0 := hlt 0 (Nat.succ_pos j)
        have h1 := retryTimes_zero_ge timeout f optFns now
        linarith
    subst hk
    have hw := retryWait_nonpositive timeout f optFns now s hT'
    have hr := retryContext_nonpositive timeout f optFns now s hT'
    refine ⟨by rw [hw]; rfl, ?_, ?_⟩
    · intro e he
      simp [resultErrAt] at he
    · intro _
      rw [hr]
      rfl

/-- C6 at a concrete input: a function that keeps returning the retryable
error `errThrottled`, polled every two seconds for five seconds; the recorded
error is returned, not the timeout error of the wait. -/
theorem C6_recorded_error_takes_precedence_witness :
    (retryWait (5 * Second) (rfAlways (some (RetryableError (some errThrottled))))
        [WithPollInterval (2 * Second)] 0 ()).ret.2
        = some (Error.timeoutError "retryableerror" (5 * Second) ["success"])
      ∧ (RetryContext (5 * Second) (rfAlways (some (RetryableError (some errThrottled))))
          [WithPollInterval (2 * Second)] 0 ()).ret = some errThrottled :=
  ⟨(C6_recorded_error_takes_precedence (5 * Second)
      (rfAlways (some (RetryableError (some errThrottled)))) [WithPollInterval (2 * Second)] 0 ()
      3 (by decide) (by decide) (by decide)).1,
    (C6_recorded_error_takes_precedence (5 * Second)
      (rfAlways (some (RetryableError (some errThrottled)))) [WithPollInterval (2 * Second)] 0 ()
      3 (by decide) (by decide) (by decide)).2.1 errThrottled (by decide)⟩

/-- C7. For every run of `RetryContext` whose wait ended by timeout, that is
whose `WaitForStateContext` returned a timeout error, the error `RetryContext`
returns is not nil; when no attempt recorded an error it is that timeout
error. -/
theorem C7_timeout_is_never_nil {σ : Type} (timeout : Duration) (f : RetryFunc σ)
    (optFns : List OptionsFunc) (now : Time) (s : σ) (lastState : String) (t : Duration)
    (expected : List String)
    (h : (retryWait timeout f optFns now s).ret.2
      = some (Error.timeoutError lastState t expected)) :
    (RetryContext timeout f optFns now s).ret ≠ none
      ∧ ((retryWait timeout f optFns now s).state.2 = none →
          (RetryContext timeout f optFns now s).ret
            = some (Error.timeoutError lastState t expected)) := by
  rcases hs : (retryWait timeout f optFns now s).state.2 with _ | e
  · simp [RetryContext, hs, h]
  · simp [RetryContext, hs]

/-- C7 at a concrete input: a function whose retryable results carry a nil
error, so that no error is ever recorded; after one second the timeout error
of the wait is returned. -/
theorem C7_timeout_is_never_nil_witness :
    (RetryContext Second (rfAlways (some (RetryableError none))) [] 0 ()).ret ≠ none
      ∧ ((retryWait Second (rfAlways (some (RetryableError none))) [] 0 ()).state.2 = none →
          (RetryContext Second (rfAlways (some (RetryableError none))) [] 0 ()).ret
            = some (Error.timeoutError "retryableerror" Second ["success"])) :=
  C7_timeout_is_never_nil Second (rfAlways (some (RetryableError none))) [] 0 ()
    "retryableerror" Second ["success"] (by decide)

/-- C8. For every error `e`: if `f` returns `NonRetryableError(e)` on its first
call, which the wait makes when its initial delay ends before the deadline,
`RetryContext` calls `f` once and returns exactly `e`, neither wrapped nor
replaced by the error of the wait. -/
theorem C8_non_retryable_error_is_returned {σ : Type} (timeout : Duration) (f : RetryFunc σ)
    (optFns : List OptionsFunc) (now : Time) (s : σ) (e : Error)
    (ht : retryTimes timeout f optFns now 0 < now + timeout)
    (h : (f (retryTimes timeout f optFns now 0) s).1 = some (NonRetryableError (some e))) :
    RetryContext timeout (recorded f) optFns now (s, [])
      = { ret := some e,
          state := ((f (retryTimes timeout f optFns now 0) s).2,
            [retryTimes timeout f optFns now 0]),
          now := retryTimes timeout f optFns now 0 } := by
  have hc := retryTimes_congr timeout timeout (recorded f) f optFns now
  have hr := retryContext_quit timeout (recorded f) optFns now (s, []) 0 e
    (fun i hi => absurd hi (Nat.not_lt_zero i)) (by rw [hc]; exact ht)
    (by rw [hc, recorded_resultAt]; exact h)
  rw [hc, recorded_stateAt] at hr
  rw [hr]
  simp [stateAt, List.range_succ]

/-- C8 at the input of `TestRetryContext_error`: a function that returns
`NonRetryableError(expected)`, with a timeout of one second. -/
theorem C8_non_retryable_error_is_returned_witness :
    RetryContext Second
        (recorded (rfAlways (some (NonRetryableError (some (Error.errorString "nope")))))) [] 0
        ((), [])
      = { ret := some (Error.errorString "nope"), state := ((), [0]), now := 0 } :=
  C8_non_retryable_error_is_returned Second
    (rfAlways (some (NonRetryableError (some (Error.errorString "nope"))))) [] 0 ()
    (Error.errorString "nope") (by decide) (by decide)

end tfresource

namespace tfresource

open resource

theorem when_error_unchanged {σ α : Type} (timeout : Duration) (f : Operation σ α)
    (p : Retryable) (now : Time) (s : σ) (k : Nat) (e : Error)
    (h : ∀ i, i < k → (p (resultAt f (whenTimes now) s i).2).1 = true)
    (ht : whenTimes now k < now + timeout)
    (he : (resultAt f (whenTimes now) s k).2 = some e)
    (hp : p (some e) = (false, some e))
    (hn : TimedOut (some e) = false) :
    (RetryWhenContext timeout f p now s).ret.2 = some e := by
  rw [when_stop timeout f p now s k (some e) h ht (by rw [he]; exact hp) hn]
  rfl

theorem untilNotFound_nil : untilNotFound none = (true, some errFoundResource) := rfl

theorem untilNotFound_error (e : Error) (h : NotFound (some e) = false) :
    untilNotFound (some e) = (false, some e) := by
  simp [untilNotFound, h]

/-- C9, the claim as stated fails twice. The predicate of
`RetryUntilNotFoundContext` classifies a not-found error as not retryable, and
the wrapper then returns a nil error, not that error. The predicate of
`RetryWhenAWSErrCodeEqualsContext` classifies the timeout error of an inner
wait as not retryable, and the wrapper then makes a last-chance call and
returns the error of that call, `errBoom`. -/
theorem C9_counterexample :
    ((untilNotFound (some Error.notFoundError)).1 = false
      ∧ (opAlways (none, some Error.notFoundError) 0 ()).1.2 = some Error.notFoundError
      ∧ (RetryUntilNotFoundContext (5 * Second) (opAlways (none, some Error.notFoundError)) 0
          ()).ret.2 = none
      ∧ (RetryUntilNotFoundContext (5 * Second) (opAlways (none, some Error.notFoundError)) 0
          ()).ret.2 ≠ some Error.notFoundError)
    ∧ (ErrCodeEquals (some errInnerTimeout) ["Throttling"] = false
      ∧ (opSwitch 1 (none, some errInnerTimeout) (none, some errBoom) 0 0).1.2
          = some errInnerTimeout
      ∧ (RetryWhenAWSErrCodeEqualsContext (5 * Second)
          (opSwitch 1 (none, some errInnerTimeout) (none, some errBoom)) ["Throttling"] 0
          0).ret.2 = some errBoom
      ∧ (RetryWhenAWSErrCodeEqualsContext (5 * Second)
          (opSwitch 1 (none, some errInnerTimeout) (none, some errBoom)) ["Throttling"] 0
          0).ret.2 ≠ some errInnerTimeout) := by
  decide

/-- C9, amended. Let the attempt numbered `k` of the retry loop, made before
the timeout after `k` results the wrapper retries on, return the non-nil error
`e`, and let `e` not be a timed-out error. Then each of
`RetryWhenAWSErrCodeEqualsContext`, `RetryWhenAWSErrMessageContainsContext`,
`RetryWhenNotFoundContext` and `RetryWhenNewResourceNotFoundContext` whose
predicate classifies `e` as not retryable returns `e` itself, and so does
`RetryUntilNotFoundContext` when `e` is not a not-found error. -/
theorem C9_non_retryable_error_is_unchanged {σ α : Type} (timeout : Duration)
    (f : Operation σ α) (now : Time) (s : σ) (k : Nat) (e : Error) (codes : List String)
    (code message : String) (isNewResource : Bool)
    (ht : whenTimes now k < now + timeout)
    (he : (resultAt f (whenTimes now) s k).2 = some e)
    (hn : TimedOut (some e) = false) :
    ((∀ i, i < k → ErrCodeEquals (resultAt f (whenTimes now) s i).2 codes = true) →
        ErrCodeEquals (some e) codes = false →
        (RetryWhenAWSErrCodeEqualsContext timeout f codes now s).ret.2 = some e)
      ∧ ((∀ i, i < k →
            ErrMessageContains (resultAt f (whenTimes now) s i).2 code message = true) →
          ErrMessageContains (some e) code message = false →
          (RetryWhenAWSErrMessageContainsContext timeout f code message now s).ret.2 = some e)
      ∧ ((∀ i, i < k → NotFound (resultAt f (whenTimes now) s i).2 = true) →
          NotFound (some e) = false →
          (RetryWhenNotFoundContext timeout f now s).ret.2 = some e)
      ∧ ((∀ i, i < k →
            (isNewResource && NotFound (resultAt f (whenTimes now) s i).2) = true) →
          (isNewResource && NotFound (some e)) = false →
          (RetryWhenNewResourceNotFoundContext timeout f isNewResource now s).ret.2 = some e)
      ∧ ((∀ i, i < k → (resultAt f (whenTimes now) s i).2 = none) →
          NotFound (some e) = false →
          (RetryUntilNotFoundContext timeout f now s).ret.2 = some e) := by
  refine ⟨?_, ?_, ?_, ?_, ?_⟩
  · intro h hp
    exact when_error_unchanged timeout f _ now s k e (fun i hi => by simp [h i hi]) ht he
      (by simp [hp]) hn
  · intro h hp
    exact when_error_unchanged timeout f _ now s k e (fun i hi => by simp [h i hi]) ht he
      (by simp [hp]) hn
  · intro h hp
    exact when_error_unchanged timeout f _ now s k e (fun i hi => by simp [h i hi]) ht he
      (by simp [hp]) hn
  · intro h hp
    exact when_error_unchanged timeout f _ now s k e (fun i hi => by simp [h i hi]) ht he
      (by simp [hp]) hn
  · intro h hp
    exact when_error_unchanged timeout f untilNotFound now s k e
      (fun i hi => by rw [h i hi, untilNotFound_nil]) ht he (untilNotFound_error e hp) hn

end tfresource

namespace tfresource

open resource

/-- C9, amended, at concrete inputs, one for each wrapper: a first result the
wrapper retries on, then the error `errBoom`, which each wrapper returns
unchanged. -/
theorem C9_non_retryable_error_is_unchanged_witness :
    (RetryWhenAWSErrCodeEqualsContext (5 * Second)
        (opSwitch 1 (none, some errThrottled) (none, some errBoom)) ["Throttling"] 0 0).ret.2
        = some errBoom
      ∧ (RetryWhenAWSErrMessageContainsContext (5 * Second)
          (opSwitch 1 (none, some errThrottled) (none, some errBoom)) "Throttling" "Rate" 0
          0).ret.2 = some errBoom
      ∧ (RetryWhenNotFoundContext (5 * Second)
          (opSwitch 1 (none, some Error.notFoundError) (none, some errBoom)) 0 0).ret.2
          = some errBoom
      ∧ (RetryWhenNewResourceNotFoundContext (5 * Second)
          (opSwitch 1 (none, some Error.notFoundError) (none, some errBoom)) true 0 0).ret.2
          = some errBoom
      ∧ (RetryUntilNotFoundContext (5 * Second)
          (opSwitch 1 (some 1, none) (none, some errBoom)) 0 0).ret.2 = some errBoom :=
  ⟨(C9_non_retryable_error_is_unchanged (5 * Second)
      (opSwitch 1 (none, some errThrottled) (none, some errBoom)) 0 0 1 errBoom ["Throttling"]
      "Throttling" "Rate" true (by decide) (by decide) (by decide)).1 (by decide) (by decide),
    (C9_non_retryable_error_is_unchanged (5 * Second)
      (opSwitch 1 (none, some errThrottled) (none, some errBoom)) 0 0 1 errBoom ["Throttling"]
      "Throttling" "Rate" true (by decide) (by decide) (by decide)).2.1 (by decide) (by decide),
    (C9_non_retryable_error_is_unchanged (5 * Second)
      (opSwitch 1 (none, some Error.notFoundError) (none, some errBoom)) 0 0 1 errBoom
      ["Throttling"] "Throttling" "Rate" true (by decide) (by decide) (by decide)).2.2.1
      (by decide) (by decide),
    (C9_non_retryable_error_is_unchanged (5 * Second)
      (opSwitch 1 (none, some Error.notFoundError) (none, some errBoom)) 0 0 1 errBoom
      ["Throttling"] "Throttling" "Rate" true (by decide) (by decide) (by decide)).2.2.2.1
      (by decide) (by decide),
    (C9_non_retryable_error_is_unchanged (5 * Second)
      (opSwitch 1 (some 1, none) (none, some errBoom)) 0 0 1 errBoom ["Throttling"]
      "Throttling" "Rate" true (by decide) (by decide) (by decide)).2.2.2.2
      (by decide) (by decide)⟩

/-- C10, the claim as stated fails. An operation that keeps returning a nil
error makes `RetryUntilNotFoundContext`, after the five attempts that fit in
five seconds, return the sentinel `errFoundResource` to its caller. -/
theorem C10_counterexample :
    (∀ i, i < 5 → (resultAt (opAlways (some 1, none)) (whenTimes 0) () i).2 = none)
      ∧ RetryUntilNotFoundContext (5 * Second) (recorded (opAlways (some 1, none))) 0 ((), [])
        = { ret := (none, some errFoundResource),
            state := ((), [0, 200000000, 600000000, 1400000000, 3000000000]),
            now := 5000000000 }
      ∧ ¬ (RetryUntilNotFoundContext (5 * Second) (recorded (opAlways (some 1, none))) 0
          ((), [])).ret.2 ≠ some errFoundResource := by
  decide

/-- C10, amended. For every operation `f` and every timeout: when `f` keeps
returning a nil error until the timeout expires, at least one call being made
before the deadline, the error `RetryUntilNotFoundContext` returns to its
caller is the sentinel `errFoundResource` itself, with a nil value; the
sentinel is not stripped, and no call of `f` is made after the deadline. -/
theorem C10_sentinel_is_returned_on_timeout {σ α : Type} (timeout : Duration)
    (f : Operation σ α) (now : Time) (s : σ) (k : Nat) (hk : 0 < k)
    (h : ∀ i, i < k → (resultAt f (whenTimes now) s i).2 = none)
    (hlt : ∀ i, i < k → whenTimes now i < now + timeout)
    (hd : now + timeout ≤ whenTimes now k) :
    RetryUntilNotFoundContext timeout (recorded f) now (s, [])
      = { ret := (none, some errFoundResource),
          state := (stateAt f (whenTimes now) s k, (List.range k).map (whenTimes now)),
          now := now + timeout } := by
  have hT : 0 < timeout := by
    have h0 := hlt 0 hk
    rw [whenTimes_zero] at h0
    linarith
  have hr := when_timeout timeout (recorded f) untilNotFound now (s, []) k hT
    (fun i hi => by rw [recorded_resultAt, h i hi, untilNotFound_nil]) hlt hd
  rw [reasonAt_recorded, recorded_stateAt] at hr
  obtain ⟨j, rfl⟩ : ∃ j, k = j + 1 := ⟨k - 1, by omega⟩
  have hreason : reasonAt untilNotFound f (whenTimes now) s (j + 1) = some errFoundResource := by
    simp only [reasonAt, h j (Nat.lt_succ_self j), untilNotFound_nil]
  rw [hreason] at hr
  rw [RetryUntilNotFoundContext, hr]
  simp [TimedOut, errFoundResource]

/-- C10, amended, at a concrete input: an operation that always returns a nil
error, with a timeout of one second. -/
theorem C10_sentinel_is_returned_on_timeout_witness :
    RetryUntilNotFoundContext Second (recorded (opAlways (some 1, none))) 0 ((), [])
      = { ret := (none, some errFoundResource), state := ((), [0, 200000000, 600000000]),
          now := 1000000000 } :=
  C10_sentinel_is_returned_on_timeout Second (opAlways (some 1, none)) 0 () 3 (by decide)
    (by decide) (by decide) (by decide)

end tfresource

/-! ## The predicates of the wrappers and what they make of a run -/

namespace tfresource

open resource

theorem lastChance_recorded {σ α : Type} (f : Operation σ α) (now : Time) (s : σ)
    (log : List Time) :
    lastChance (recorded f) now (s, log)
      = { ret := returned (f now s).1.1 (f now s).1.2, state := ((f now s).2, log ++ [now]),
          now := now } := by
  simp only [lastChance, recorded, returned]
  cases (f now s).1.2 <;> rfl

theorem when_first_stop {σ α : Type} (timeout : Duration) (f : Operation σ α) (p : Retryable)
    (now : Time) (s : σ) (hp : p (f now s).1.2 = (false, (f now s).1.2))
    (hn : TimedOut (f now s).1.2 = false) :
    RetryWhenContext timeout (recorded f) p now (s, [])
      = { ret := returned (f now s).1.1 (f now s).1.2, state := ((f now s).2, [now]),
          now := now } := by
  by_cases hT : 0 < timeout
  · have ht : whenTimes now 0 < now + timeout := by
      rw [whenTimes_zero]
      linarith
    have hk : p (resultAt f (whenTimes now) s 0).2
        = (false, (resultAt f (whenTimes now) s 0).2) := by
      simp only [resultAt, stateAt, whenTimes_zero]
      exact hp
    have hn' : TimedOut (resultAt f (whenTimes now) s 0).2 = false := by
      simp only [resultAt, stateAt, whenTimes_zero]
      exact hn
    rw [when_stop_recorded timeout f p now s 0 _
      (fun i hi => absurd hi (Nat.not_lt_zero i)) ht hk hn']
    simp [resultAt, stateAt, whenTimes_zero, List.range_succ]
  · rw [when_nonpositive timeout (recorded f) p now (s, []) (not_lt.mp hT), lastChance_recorded]
    simp

theorem ErrCodeEquals_iff (err : Option Error) (codes : List String) :
    ErrCodeEquals err codes = true
      ↔ ∃ e code message, err = some e ∧ asAWSError e = some (code, message) ∧ code ∈ codes := by
  cases err with
  | none => simp [ErrCodeEquals]
  | some e =>
    rcases h : asAWSError e with _ | ⟨c, m⟩
    · simp [ErrCodeEquals, h]
    · simp [ErrCodeEquals, h]

theorem asAWSError_not_timedOut (e : Error) (x : String × String) (h : asAWSError e = some x) :
    TimedOut (some e) = false := by
  cases e <;> simp [asAWSError, TimedOut] at h ⊢

theorem isNotFound_not_timedOut (e : Error) (h : isNotFound e = true) :
    TimedOut (some e) = false := by
  cases e <;> simp [isNotFound, TimedOut] at h ⊢

end tfresource

/-! ## The claims on the wrappers -/

namespace tfresource

open resource

/-- C11, the claim as stated fails in its last part. The timeout error of an
inner wait is not an AWS error, the predicate of
`RetryWhenAWSErrCodeEqualsContext` gives `(false, err)` for it, and yet the
call does not end after one attempt: the operation is called a second time. -/
theorem C11_counterexample :
    asAWSError errInnerTimeout = none
      ∧ codeEqualsRetryable ["TestCode1", "TestCode2"] (some errInnerTimeout)
          = (false, some errInnerTimeout)
      ∧ (RetryWhenAWSErrCodeEqualsContext (5 * Second)
          (recorded (opAlways (none, some errInnerTimeout))) ["TestCode1", "TestCode2"] 0
          ((), [])).state.2 = [0, 0]
      ∧ (RetryWhenAWSErrCodeEqualsContext (5 * Second)
          (recorded (opAlways (none, some errInnerTimeout))) ["TestCode1", "TestCode2"] 0
          ((), [])).state.2.length ≠ 1 := by
  decide

/-- C11, amended. For every error `err`, nil or not, and every list of codes,
the predicate that `RetryWhenAWSErrCodeEqualsContext` passes to
`RetryWhenContext` returns `(true, err)` exactly when `err` is an AWS error
whose code is one of the given codes, and `(false, err)` otherwise. So a first
result whose error is not retried and is not a timed-out error ends the call
after one attempt, with that result; a nil error and an AWS error are never
timed-out errors. -/
theorem C11_code_equals_predicate {σ α : Type} (codes : List String) (timeout : Duration)
    (f : Operation σ α) (now : Time) (s : σ) :
    (∀ err, codeEqualsRetryable codes err = (true, err)
        ↔ ∃ e code message, err = some e ∧ asAWSError e = some (code, message) ∧ code ∈ codes)
      ∧ (∀ err, (¬ ∃ e code message,
            err = some e ∧ asAWSError e = some (code, message) ∧ code ∈ codes) →
          codeEqualsRetryable codes err = (false, err))
      ∧ RetryWhenAWSErrCodeEqualsContext timeout f codes now s
          = RetryWhenContext timeout f (codeEqualsRetryable codes) now s
      ∧ (codeEqualsRetryable codes (f now s).1.2 = (false, (f now s).1.2) →
          TimedOut (f now s).1.2 = false →
          RetryWhenAWSErrCodeEqualsContext timeout (recorded f) codes now (s, [])
            = { ret := returned (f now s).1.1 (f now s).1.2, state := ((f now s).2, [now]),
                now := now })
      ∧ TimedOut none = false
      ∧ (∀ e x, asAWSError e = some x → TimedOut (some e) = false) := by
  refine ⟨?_, ?_, rfl, ?_, rfl, asAWSError_not_timedOut⟩
  · intro err
    rw [← ErrCodeEquals_iff]
    by_cases h : ErrCodeEquals err codes = true <;> simp [codeEqualsRetryable, h]
  · intro err h
    rw [← ErrCodeEquals_iff] at h
    simp [codeEqualsRetryable, h]
  · intro hp hn
    exact when_first_stop timeout f (codeEqualsRetryable codes) now s hp hn

/-- C11, amended, at the inputs of `TestRetryWhenAWSErrCodeEquals`: no error,
an error that is not an AWS error, and an AWS error with another code each end
the call after one attempt. -/
theorem C11_code_equals_predicate_witness :
    RetryWhenAWSErrCodeEqualsContext (5 * Second) (recorded (opAlways (none, none)))
        ["TestCode1", "TestCode2"] 0 ((), [])
        = { ret := (none, none), state := ((), [0]), now := 0 }
      ∧ RetryWhenAWSErrCodeEqualsContext (5 * Second)
          (recorded (opAlways (none, some (Error.errorString "TestCode"))))
          ["TestCode1", "TestCode2"] 0 ((), [])
        = { ret := (none, some (Error.errorString "TestCode")), state := ((), [0]), now := 0 }
      ∧ RetryWhenAWSErrCodeEqualsContext (5 * Second)
          (recorded (opAlways (none, some (Error.awsError "Testing" "Testing"))))
          ["TestCode1", "TestCode2"] 0 ((), [])
        = { ret := (none, some (Error.awsError "Testing" "Testing")), state := ((), [0]),
            now := 0 } :=
  ⟨(C11_code_equals_predicate ["TestCode1", "TestCode2"] (5 * Second) (opAlways (none, none)) 0
      ()).2.2.2.1 (by decide) (by decide),
    (C11_code_equals_predicate ["TestCode1", "TestCode2"] (5 * Second)
      (opAlways (none, some (Error.errorString "TestCode"))) 0 ()).2.2.2.1 (by decide)
      (by decide),
    (C11_code_equals_predicate ["TestCode1", "TestCode2"] (5 * Second)
      (opAlways (none, some (Error.awsError "Testing" "Testing"))) 0 ()).2.2.2.1 (by decide)
      (by decide)⟩

end tfresource

namespace tfresource

open resource

theorem ErrMessageContains_iff (err : Option Error) (code message : String) :
    ErrMessageContains err code message = true
      ↔ ∃ e m, err = some e ∧ asAWSError e = some (code, m) ∧ message.data <:+: m.data := by
  cases err with
  | none => simp [ErrMessageContains]
  | some e =>
    rcases h : asAWSError e with _ | ⟨c, m⟩
    · simp [ErrMessageContains, h]
    · constructor
      · intro hb
        simp [ErrMessageContains, h] at hb
        obtain ⟨hc, hm⟩ := hb
        subst hc
        exact ⟨e, m, rfl, h, hm⟩
      · rintro ⟨e', m', h1, h2, h3⟩
        cases h1
        rw [h] at h2
        simp only [Option.some.injEq, Prod.mk.injEq] at h2
        obtain ⟨hc, hm⟩ := h2
        subst hc
        subst hm
        simp [ErrMessageContains, h, h3]

/-- C12. For every error `err`, code and message, the predicate of
`RetryWhenAWSErrMessageContainsContext` returns `(true, err)` exactly when
`err` is an AWS error with the given code whose message contains the given
text, and `(false, err)` otherwise. An AWS error with the given code whose
message lacks the text is not retried: whatever the timeout, the call ends
after one attempt with that error. -/
theorem C12_message_contains_predicate {σ α : Type} (code message : String)
    (timeout : Duration) (f : Operation σ α) (now : Time) (s : σ) :
    (∀ err, messageContainsRetryable code message err = (true, err)
        ↔ ∃ e m, err = some e ∧ asAWSError e = some (code, m) ∧ message.data <:+: m.data)
      ∧ (∀ err, (¬ ∃ e m,
            err = some e ∧ asAWSError e = some (code, m) ∧ message.data <:+: m.data) →
          messageContainsRetryable code message err = (false, err))
      ∧ RetryWhenAWSErrMessageContainsContext timeout f code message now s
          = RetryWhenContext timeout f (messageContainsRetryable code message) now s
      ∧ (∀ e m, (f now s).1.2 = some e → asAWSError e = some (code, m) →
          ¬ message.data <:+: m.data →
          messageContainsRetryable code message (some e) = (false, some e)
            ∧ RetryWhenAWSErrMessageContainsContext timeout (recorded f) code message now (s, [])
              = { ret := (none, some e), state := ((f now s).2, [now]), now := now }) := by
  refine ⟨?_, ?_, rfl, ?_⟩
  · intro err
    rw [← ErrMessageContains_iff]
    by_cases h : ErrMessageContains err code message = true <;>
      simp [messageContainsRetryable, h]
  · intro err h
    rw [← ErrMessageContains_iff] at h
    simp [messageContainsRetryable, h]
  · intro e m he ha hm
    have hfalse : ErrMessageContains (some e) code message = false := by
      have hiff := ErrMessageContains_iff (some e) code message
      by_contra hb
      have hb' : ErrMessageContains (some e) code message = true := by simpa using hb
      obtain ⟨e', m', h1, h2, h3⟩ := hiff.mp hb'
      cases h1
      rw [ha] at h2
      simp only [Option.some.injEq, Prod.mk.injEq, true_and] at h2
      subst h2
      exact absurd h3 hm
    have hp : messageContainsRetryable code message (some e) = (false, some e) := by
      simp [messageContainsRetryable, hfalse]
    refine ⟨hp, ?_⟩
    have hr := when_first_stop timeout f (messageContainsRetryable code message) now s
      (by rw [he]; exact hp) (by rw [he]; exact asAWSError_not_timedOut e _ ha)
    rw [he] at hr
    exact hr

/-- C12 at the input `non-retryable AWS error` of
`TestRetryWhenAWSErrMessageContains`: the code matches, the message
`Testing` does not contain `TestMessage1`. -/
theorem C12_message_contains_predicate_witness :
    messageContainsRetryable "TestCode1" "TestMessage1"
        (some (Error.awsError "TestCode1" "Testing"))
        = (false, some (Error.awsError "TestCode1" "Testing"))
      ∧ RetryWhenAWSErrMessageContainsContext (5 * Second)
          (recorded (opAlways (none, some (Error.awsError "TestCode1" "Testing")))) "TestCode1"
          "TestMessage1" 0 ((), [])
        = { ret := (none, some (Error.awsError "TestCode1" "Testing")), state := ((), [0]),
            now := 0 } :=
  (C12_message_contains_predicate "TestCode1" "TestMessage1" (5 * Second)
    (opAlways (none, some (Error.awsError "TestCode1" "Testing"))) 0 ()).2.2.2
    (Error.awsError "TestCode1" "Testing") "Testing" rfl rfl (by decide)

end tfresource

namespace tfresource

open resource

theorem RetryWhenNotFoundContext_eq {σ α : Type} (timeout : Duration) (f : Operation σ α)
    (now : Time) (s : σ) :
    RetryWhenNotFoundContext timeout f now s
      = RetryWhenContext timeout f notFoundRetryable now s := rfl

theorem RetryWhenNewResourceNotFoundContext_eq {σ α : Type} (timeout : Duration)
    (f : Operation σ α) (isNewResource : Bool) (now : Time) (s : σ) :
    RetryWhenNewResourceNotFoundContext timeout f isNewResource now s
      = RetryWhenContext timeout f (newResourceNotFoundRetryable isNewResource) now s := rfl

theorem notFoundRetryable_true (err : Option Error) (h : NotFound err = true) :
    notFoundRetryable err = (true, err) := by
  simp [notFoundRetryable, h]

theorem notFoundRetryable_false (err : Option Error) (h : NotFound err = false) :
    notFoundRetryable err = (false, err) := by
  simp [notFoundRetryable, h]

/-- C13, the claim as stated fails in its last part. An operation that first
fails with the timeout error of an inner wait, which is not a not-found error
and which the predicate does not retry on, and then succeeds, makes
`RetryWhenNotFoundContext` return no error. -/
theorem C13_counterexample :
    NotFound (some errInnerTimeout) = false
      ∧ notFoundRetryable (some errInnerTimeout) = (false, some errInnerTimeout)
      ∧ (opSwitch 1 (none, some errInnerTimeout) (some 8, none) 0 0).1.2 = some errInnerTimeout
      ∧ RetryWhenNotFoundContext (5 * Second)
          (recorded (opSwitch 1 (none, some errInnerTimeout) (some 8, none))) 0 (0, [])
        = { ret := (some 8, none), state := (2, [0, 0]), now := 0 }
      ∧ (RetryWhenNotFoundContext (5 * Second)
          (recorded (opSwitch 1 (none, some errInnerTimeout) (some 8, none))) 0 (0, [])).ret.2
          = none := by
  decide

/-- C13, amended. For every error `err`, nil or not, the predicate of
`RetryWhenNotFoundContext` returns `(true, err)` exactly when `NotFound(err)`
holds and `(false, err)` otherwise. Hence `RetryWhenNotFoundContext` returns no
error when `f` succeeds at once, or succeeds within the timeout after
not-found results; it returns the error when `f` fails, within the timeout and
after not-found results, with an error that is neither a not-found error nor a
timed-out error; and it returns an error when `f` keeps returning not-found
until the timeout. -/
theorem C13_not_found_predicate {σ α : Type} (timeout : Duration) (f : Operation σ α)
    (now : Time) (s : σ) (k : Nat) :
    (∀ err, notFoundRetryable err = (true, err) ↔ NotFound err = true)
      ∧ (∀ err, NotFound err = false → notFoundRetryable err = (false, err))
      ∧ RetryWhenNotFoundContext timeout f now s
          = RetryWhenContext timeout f notFoundRetryable now s
      ∧ ((f now s).1.2 = none → (RetryWhenNotFoundContext timeout f now s).ret.2 = none)
      ∧ ((∀ i, i < k → NotFound (resultAt f (whenTimes now) s i).2 = true) →
          whenTimes now k < now + timeout →
          (resultAt f (whenTimes now) s k).2 = none →
          (RetryWhenNotFoundContext timeout f now s).ret.2 = none)
      ∧ ((∀ i, i < k → NotFound (resultAt f (whenTimes now) s i).2 = true) →
          whenTimes now k < now + timeout →
          ∀ e, (resultAt f (whenTimes now) s k).2 = some e → NotFound (some e) = false →
            TimedOut (some e) = false →
            (RetryWhenNotFoundContext timeout f now s).ret.2 = some e)
      ∧ ((∀ i, i < k + 1 → NotFound (resultAt f (whenTimes now) s i).2 = true) →
          (∀ i, i < k + 1 → whenTimes now i < now + timeout) →
          now + timeout ≤ whenTimes now (k + 1) →
          (RetryWhenNotFoundContext timeout f now s).ret.2
              = (resultAt f (whenTimes now) s k).2
            ∧ (RetryWhenNotFoundContext timeout f now s).ret.2 ≠ none) := by
  refine ⟨?_, notFoundRetryable_false, rfl, ?_, ?_, ?_, ?_⟩
  · intro err
    by_cases h : NotFound err = true <;> simp [notFoundRetryable, h]
  · intro h0
    by_cases hT : 0 < timeout
    · have ht : whenTimes now 0 < now + timeout := by
        rw [whenTimes_zero]
        linarith
      have hk : notFoundRetryable (resultAt f (whenTimes now) s 0).2 = (false, none) := by
        simp only [resultAt, stateAt, whenTimes_zero, h0]
        rfl
      rw [RetryWhenNotFoundContext_eq, when_stop timeout f notFoundRetryable now s 0 none
        (fun i hi => absurd hi (Nat.not_lt_zero i)) ht hk rfl]
      rfl
    · rw [RetryWhenNotFoundContext_eq,
        when_nonpositive timeout f notFoundRetryable now s (not_lt.mp hT)]
      simp [lastChance, h0]
  · intro h ht hk
    rw [RetryWhenNotFoundContext_eq, when_stop timeout f notFoundRetryable now s k none
      (fun i hi => by rw [notFoundRetryable_true _ (h i hi)]) ht
      (by rw [hk]; rfl) rfl]
    rfl
  · intro h ht e hk hnf hn
    rw [RetryWhenNotFoundContext_eq, when_stop timeout f notFoundRetryable now s k (some e)
      (fun i hi => by rw [notFoundRetryable_true _ (h i hi)]) ht
      (by rw [hk]; exact notFoundRetryable_false _ hnf) hn]
    rfl
  · intro h hlt hd
    have hT : 0 < timeout := by
      have h0 := hlt 0 (Nat.succ_pos k)
      rw [whenTimes_zero] at h0
      linarith
    have hnf := h k (Nat.lt_succ_self k)
    have hr := when_timeout timeout f notFoundRetryable now s (k + 1) hT
      (fun i hi => by rw [notFoundRetryable_true _ (h i hi)]) hlt hd
    have hreason : reasonAt notFoundRetryable f (whenTimes now) s (k + 1)
        = (resultAt f (whenTimes now) s k).2 := by
      simp only [reasonAt, notFoundRetryable_true _ hnf]
    rw [hreason] at hr
    rcases he : (resultAt f (whenTimes now) s k).2 with _ | e
    · rw [he] at hnf
      simp [NotFound] at hnf
    · rw [he] at hr hnf
      have hto : TimedOut (some e) = false := isNotFound_not_timedOut e hnf
      rw [RetryWhenNotFoundContext_eq, hr]
      simp [hto]

end tfresource

namespace tfresource

open resource

/-- C13, amended, at the inputs of `TestRetryWhenNotFound`: no error; one
not-found error and then success; an error that is not a not-found error; and
not-found errors until the timeout of five seconds. -/
theorem C13_not_found_predicate_witness :
    (RetryWhenNotFoundContext (5 * Second) (opAlways (none, none)) 0 ()).ret.2 = none
      ∧ (RetryWhenNotFoundContext (5 * Second)
          (opSwitch 1 (none, some Error.notFoundError) (none, none)) 0 0).ret.2 = none
      ∧ (RetryWhenNotFoundContext (5 * Second)
          (opAlways (none, some (Error.errorString "TestCode"))) 0 ()).ret.2
          = some (Error.errorString "TestCode")
      ∧ (RetryWhenNotFoundContext (5 * Second) (opAlways (none, some Error.notFoundError)) 0
          ()).ret.2 ≠ none :=
  ⟨(C13_not_found_predicate (5 * Second) (opAlways (none, none)) 0 () 0).2.2.2.1 (by decide),
    (C13_not_found_predicate (5 * Second)
      (opSwitch 1 (none, some Error.notFoundError) (none, none)) 0 0 1).2.2.2.2.1
      (by decide) (by decide) (by decide),
    (C13_not_found_predicate (5 * Second) (opAlways (none, some (Error.errorString "TestCode")))
      0 () 0).2.2.2.2.2.1 (by decide) (by decide) (Error.errorString "TestCode") (by decide)
      (by decide) (by decide),
    ((C13_not_found_predicate (5 * Second) (opAlways (none, some Error.notFoundError)) 0 ()
      4).2.2.2.2.2.2 (by decide) (by decide) (by decide)).2⟩

/-- C14. For every `k`: if `f` returns a nil error, the resource still being
there, on its first `k` calls and a not-found error on call `k + 1`, that call
being made before the timeout expires, `RetryUntilNotFoundContext` ends with a
nil error after exactly `k + 1` calls of `f`. -/
theorem C14_until_not_found_succeeds {σ α : Type} (timeout : Duration) (f : Operation σ α)
    (now : Time) (s : σ) (k : Nat)
    (h : ∀ i, i < k → (resultAt f (whenTimes now) s i).2 = none)
    (hk : NotFound (resultAt f (whenTimes now) s k).2 = true)
    (ht : whenTimes now k < now + timeout) :
    RetryUntilNotFoundContext timeout (recorded f) now (s, [])
        = { ret := ((resultAt f (whenTimes now) s k).1, none),
            state := (stateAt f (whenTimes now) s (k + 1),
              (List.range (k + 1)).map (whenTimes now)),
            now := whenTimes now k }
      ∧ (RetryUntilNotFoundContext timeout (recorded f) now (s, [])).ret.2 = none
      ∧ (RetryUntilNotFoundContext timeout (recorded f) now (s, [])).state.2.length = k + 1 := by
  have hr := when_stop_recorded timeout f untilNotFound now s k none
    (fun i hi => by rw [h i hi, untilNotFound_nil]) ht (by simp [untilNotFound, hk]) rfl
  have hr' : RetryUntilNotFoundContext timeout (recorded f) now (s, [])
      = { ret := ((resultAt f (whenTimes now) s k).1, none),
          state := (stateAt f (whenTimes now) s (k + 1),
            (List.range (k + 1)).map (whenTimes now)),
          now := whenTimes now k } := hr
  refine ⟨hr', ?_, ?_⟩
  · rw [hr']
  · rw [hr']
    simp

/-- C14 at the input `retryable NotFoundError` of `TestRetryUntilNotFound`: one
call that finds the resource, then a not-found error. -/
theorem C14_until_not_found_succeeds_witness :
    RetryUntilNotFoundContext (5 * Second)
        (recorded (opSwitch 1 (none, none) (none, some Error.notFoundError))) 0 (0, [])
        = { ret := (none, none), state := (2, [0, 200000000]), now := 200000000 }
      ∧ (RetryUntilNotFoundContext (5 * Second)
          (recorded (opSwitch 1 (none, none) (none, some Error.notFoundError))) 0
          (0, [])).ret.2 = none
      ∧ (RetryUntilNotFoundContext (5 * Second)
          (recorded (opSwitch 1 (none, none) (none, some Error.notFoundError))) 0
          (0, [])).state.2.length = 1 + 1 :=
  C14_until_not_found_succeeds (5 * Second)
    (opSwitch 1 (none, none) (none, some Error.notFoundError)) 0 0 1 (by decide) (by decide)
    (by decide)

/-- C15, the code at a failing input. The operation never returns a not-found
error: its first call fails with the timeout error of an inner wait and its
later calls find the resource and return a nil error. The retry loop ends with
that timeout error, the last-chance call of `RetryWhenContext` returns a nil
error, and `RetryUntilNotFoundContext` reports success with the value of the
resource that is still found. The same happens with a timeout of zero for an
operation that always finds the resource. -/
theorem C15_found_resource_reported_as_success :
    (∀ i, i < 6 →
        NotFound (resultAt (opSwitch 1 (none, some errInnerTimeout) (some 8, none))
          (whenTimes 0) 0 i).2 = false)
      ∧ RetryUntilNotFoundContext (5 * Second)
          (recorded (opSwitch 1 (none, some errInnerTimeout) (some 8, none))) 0 (0, [])
        = { ret := (some 8, none), state := (2, [0, 0]), now := 0 }
      ∧ RetryUntilNotFoundContext 0 (recorded (opAlways (some 8, none))) 0 ((), [])
        = { ret := (some 8, none), state := ((), [0]), now := 0 } := by
  decide

/-- C16, the claim as stated fails. The predicate of
`RetryUntilNotFoundContext` classifies an error that is not a not-found error
as not retryable, and the call ends after one attempt with that error instead
of polling on. -/
theorem C16_counterexample :
    NotFound (some errBoom) = false
      ∧ (untilNotFound (some errBoom)).1 = false
      ∧ untilNotFound (some errBoom) = (false, some errBoom)
      ∧ RetryUntilNotFoundContext (5 * Second) (recorded (opAlways (none, some errBoom))) 0
          ((), [])
        = { ret := (none, some errBoom), state := ((), [0]), now := 0 } := by
  decide

/-- C16, amended. The predicate of `RetryUntilNotFoundContext` classifies an
attempt as retryable, with the sentinel `errFoundResource` as reason, exactly
when the operation succeeds with a nil error; as terminal success, `(false,
nil)`, exactly when the error is a not-found error; and as a terminal failure
with the error itself when the operation fails with an error that is not a
not-found error. -/
theorem C16_until_not_found_predicate (err : Option Error) :
    ((untilNotFound err).1 = true ↔ err = none)
      ∧ untilNotFound none = (true, some errFoundResource)
      ∧ (untilNotFound err = (false, none) ↔ NotFound err = true)
      ∧ (∀ e, err = some e → NotFound err = false → untilNotFound err = (false, some e)) := by
  cases err with
  | none => simp [untilNotFound, NotFound]
  | some e =>
    have hnil : NotFound none = false := rfl
    by_cases h : NotFound (some e) = true
    · simp [untilNotFound, h, hnil]
    · simp [untilNotFound, h, hnil]

end tfresource

namespace tfresource

open resource

/-- C17. For every error `err`, nil or not, and every flag `isNewResource`, the
predicate of `RetryWhenNewResourceNotFoundContext` returns `(true, err)`
exactly when `isNewResource` is true and `NotFound(err)` holds, and
`(false, err)` otherwise. -/
theorem C17_new_resource_predicate {σ α : Type} (isNewResource : Bool) (err : Option Error)
    (timeout : Duration) (f : Operation σ α) (now : Time) (s : σ) :
    (newResourceNotFoundRetryable isNewResource err = (true, err)
        ↔ isNewResource = true ∧ NotFound err = true)
      ∧ ((¬ (isNewResource = true ∧ NotFound err = true)) →
          newResourceNotFoundRetryable isNewResource err = (false, err))
      ∧ RetryWhenNewResourceNotFoundContext timeout f isNewResource now s
          = RetryWhenContext timeout f (newResourceNotFoundRetryable isNewResource) now s := by
  refine ⟨?_, ?_, rfl⟩
  · cases isNewResource <;> cases h : NotFound err <;>
      simp [newResourceNotFoundRetryable, h]
  · intro hn
    cases isNewResource <;> cases h : NotFound err <;>
      simp [newResourceNotFoundRetryable, h] at hn ⊢

/-- C18. With `isNewResource` false, for every operation `f` whose first result
is a not-found error `e`, whatever the timeout,
`RetryWhenNewResourceNotFoundContext` calls `f` exactly once and fails at once
with the error `e`. With `isNewResource` true it retries the not-found results
and returns no error once `f` returns a nil error, within the timeout. -/
theorem C18_new_resource_leniency {σ α : Type} (timeout : Duration) (f : Operation σ α)
    (now : Time) (s : σ) (k : Nat) :
    (∀ e, (f now s).1.2 = some e → NotFound (some e) = true →
        RetryWhenNewResourceNotFoundContext timeout (recorded f) false now (s, [])
          = { ret := (none, some e), state := ((f now s).2, [now]), now := now })
      ∧ ((∀ i, i < k → NotFound (resultAt f (whenTimes now) s i).2 = true) →
          (resultAt f (whenTimes now) s k).2 = none →
          whenTimes now k < now + timeout →
          RetryWhenNewResourceNotFoundContext timeout (recorded f) true now (s, [])
            = { ret := ((resultAt f (whenTimes now) s k).1, none),
                state := (stateAt f (whenTimes now) s (k + 1),
                  (List.range (k + 1)).map (whenTimes now)),
                now := whenTimes now k }) := by
  constructor
  · intro e he hnf
    have hr := when_first_stop timeout f (newResourceNotFoundRetryable false) now s
      (by simp [newResourceNotFoundRetryable])
      (by rw [he]; exact isNotFound_not_timedOut e hnf)
    rw [he] at hr
    exact hr
  · intro h hk ht
    exact when_stop_recorded timeout f (newResourceNotFoundRetryable true) now s k none
      (fun i hi => by simp [newResourceNotFoundRetryable, h i hi]) ht
      (by rw [hk]; rfl) rfl

/-- C18 at the inputs of `TestRetryWhenNewResourceNotFound`: a not-found error
for a resource that is not new, and a not-found error followed by success for
a new resource. -/
theorem C18_new_resource_leniency_witness :
    RetryWhenNewResourceNotFoundContext (5 * Second)
        (recorded (opAlways (none, some Error.notFoundError))) false 0 ((), [])
        = { ret := (none, some Error.notFoundError), state := ((), [0]), now := 0 }
      ∧ RetryWhenNewResourceNotFoundContext (5 * Second)
          (recorded (opSwitch 1 (none, some Error.notFoundError) (none, none))) true 0 (0, [])
        = { ret := (none, none), state := (2, [0, 200000000]), now := 200000000 } :=
  ⟨(C18_new_resource_leniency (5 * Second) (opAlways (none, some Error.notFoundError)) 0 ()
      0).1 Error.notFoundError rfl (by decide),
    (C18_new_resource_leniency (5 * Second)
      (opSwitch 1 (none, some Error.notFoundError) (none, none)) 0 0 1).2 (by decide)
      (by decide) (by decide)⟩

end tfresource

/-! ## Independence of invocations -/

namespace tfresource

open resource

theorem exists_deadline_index (d m p : Duration) (start deadline : Time) :
    ∃ k, deadline ≤ attemptTime d m p start k
      ∧ ∀ i, i < k → attemptTime d m p start i < deadline := by
  have hex : ∃ k, deadline ≤ attemptTime d m p start k := by
    refine ⟨(deadline - start).toNat, ?_⟩
    have h := attemptTime_ge d m p start (deadline - start).toNat
    simp only [Duration, Time] at *
    omega
  classical
  exact ⟨Nat.find hex, Nat.find_spec hex, fun i hi => not_le.mp (Nat.find_min hex hi)⟩

theorem lastChance_ret {σ α : Type} (f : Operation σ α) (now : Time) (s : σ) :
    (lastChance f now s).ret = returned (f now s).1.1 (f now s).1.2 := by
  simp only [lastChance, returned]
  cases (f now s).1.2 <;> rfl

theorem when_const {σ α : Type} (timeout : Duration) (f : Operation σ α) (p : Retryable)
    (r : Option α × Option Error) (hdet : ∀ t s, (f t s).1 = r) (now : Time) (s : σ) :
    (RetryWhenContext timeout f p now s).ret = constOutcome timeout p r := by
  have hres : ∀ i, resultAt f (whenTimes now) s i = r := fun i => hdet _ _
  by_cases hT : 0 < timeout
  · have ht0 : whenTimes now 0 < now + timeout := by
      rw [whenTimes_zero]
      linarith
    rcases hp : p r.2 with ⟨b, e⟩
    cases b with
    | false =>
      by_cases hto : TimedOut e = true
      · cases e with
        | none => simp [TimedOut] at hto
        | some x =>
          rw [when_quit_timedOut timeout f p now s 0 x
            (fun i hi => absurd hi (Nat.not_lt_zero i)) ht0 (by rw [hres]; exact hp) hto,
            lastChance_ret, hdet]
          simp [constOutcome, hT, hp, hto]
      · have hto' : TimedOut e = false := by simpa using hto
        rw [when_stop timeout f p now s 0 e (fun i hi => absurd hi (Nat.not_lt_zero i)) ht0
          (by rw [hres]; exact hp) hto', hres]
        simp [constOutcome, hT, hp, hto']
    | true =>
      obtain ⟨k, hd, hlt⟩ := exists_deadline_index 0 0 0 now (now + timeout)
      have hk : k ≠ 0 := by
        intro h0
        subst h0
        exact absurd hd (not_le.mpr ht0)
      obtain ⟨j, rfl⟩ : ∃ j, k = j + 1 := ⟨k - 1, by omega⟩
      have hr := when_timeout timeout f p now s (j + 1) hT
        (fun i _ => by rw [hres, hp]) hlt hd
      have hreason : reasonAt p f (whenTimes now) s (j + 1) = e := by
        simp only [reasonAt, hres, hp]
      rw [hreason] at hr
      rw [hr]
      cases e with
      | none =>
        rw [lastChance_ret, hdet]
        simp [constOutcome, hT, hp]
      | some x =>
        by_cases hto : TimedOut (some x) = true
        · simp only [hto, if_true]
          rw [lastChance_ret, hdet]
          simp [constOutcome, hT, hp, hto]
        · have hto' : TimedOut (some x) = false := by simpa using hto
          simp [constOutcome, hT, hp, hto']
  · rw [when_nonpositive timeout f p now s (not_lt.mp hT), lastChance_ret, hdet]
    simp [constOutcome, hT]

/-- C19. Let the operation be deterministic: each of its calls returns the same
result `r`, whenever it is made and whatever the state of the world. Then two
invocations of `RetryWhenContext` with the same operation, predicate and
timeout, entered at any two instants and in any two states of the world, for
instance the second one after the first and in the world the first one left,
return the same value and the same error; so do two invocations of each
specialisation. The variables `resultErr` and `output` start nil in every
invocation, and the result is a function of the timeout, the predicate and
`r` alone. -/
theorem C19_invocations_are_independent {σ α : Type} (timeout : Duration) (f : Operation σ α)
    (p : Retryable) (r : Option α × Option Error) (hdet : ∀ t s, (f t s).1 = r)
    (now now' : Time) (s s' : σ) (codes : List String) (code message : String)
    (isNewResource : Bool) :
    (RetryWhenContext timeout f p now s).ret = (RetryWhenContext timeout f p now' s').ret
      ∧ (RetryWhenContext timeout f p (RetryWhenContext timeout f p now s).now
          (RetryWhenContext timeout f p now s).state).ret
          = (RetryWhenContext timeout f p now s).ret
      ∧ (RetryWhenContext timeout f p now s).ret = constOutcome timeout p r
      ∧ (RetryWhenAWSErrCodeEqualsContext timeout f codes now s).ret
          = (RetryWhenAWSErrCodeEqualsContext timeout f codes now' s').ret
      ∧ (RetryWhenAWSErrMessageContainsContext timeout f code message now s).ret
          = (RetryWhenAWSErrMessageContainsContext timeout f code message now' s').ret
      ∧ (RetryUntilNotFoundContext timeout f now s).ret
          = (RetryUntilNotFoundContext timeout f now' s').ret
      ∧ (RetryWhenNotFoundContext timeout f now s).ret
          = (RetryWhenNotFoundContext timeout f now' s').ret
      ∧ (RetryWhenNewResourceNotFoundContext timeout f isNewResource now s).ret
          = (RetryWhenNewResourceNotFoundContext timeout f isNewResource now' s').ret := by
  have key : ∀ (q : Retryable) (t t' : Time) (u u' : σ),
      (RetryWhenContext timeout f q t u).ret = (RetryWhenContext timeout f q t' u').ret :=
    fun q t t' u u' =>
      (when_const timeout f q r hdet t u).trans (when_const timeout f q r hdet t' u').symm
  exact ⟨key p now now' s s', key p _ now _ s, when_const timeout f p r hdet now s,
    key _ now now' s s', key _ now now' s s', key _ now now' s s', key _ now now' s s',
    key _ now now' s s'⟩

/-- C19 at a concrete input: an operation that always fails with the error
`errBoom`, which the predicate does not retry on, invoked at the instant 0 and
again three seconds later. -/
theorem C19_invocations_are_independent_witness :
    (RetryWhenContext (5 * Second) (opAlways (none, some errBoom)) neverRetry 0 ()).ret
      = (RetryWhenContext (5 * Second) (opAlways (none, some errBoom)) neverRetry (3 * Second)
          ()).ret :=
  (C19_invocations_are_independent (5 * Second) (opAlways (none, some errBoom)) neverRetry
    (none, some errBoom) (fun _ _ => rfl) 0 (3 * Second) () () [] "" "" false).1

end tfresource

/-! ## Timeouts of zero or less -/

namespace tfresource

open resource

/-- C20, the claim as stated fails for `RetryWhenContext`. With a timeout of
zero, and with a negative one, an operation that succeeds makes
`RetryWhenContext` return its value with a nil error: the success of a probe
attempt, the last-chance call, is returned. -/
theorem C20_counterexample :
    RetryWhenContext 0 (recorded (opAlways (some 8, none))) neverRetry 0 ((), [])
        = { ret := (some 8, none), state := ((), [0]), now := 0 }
      ∧ (RetryWhenContext 0 (recorded (opAlways (some 8, none))) neverRetry 0 ((), [])).ret.2
          = none
      ∧ (RetryWhenContext (-Second) (recorded (opAlways (some 8, none))) retryOnError 0
          ((), [])).ret = (some 8, none) := by
  decide

/-- C20, amended. For every timeout of zero or less: `RetryContext` returns the
timeout error of the wait at once, without calling its function, whatever the
options; the retry loop of `RetryWhenContext` likewise ends at once without a
call; `RetryWhenContext` then calls the operation exactly once, the
last-chance call, and returns at once what that call returns, its value with a
nil error when it succeeds and its error when it fails. -/
theorem C20_nonpositive_timeout {σ τ α : Type} (timeout : Duration) (hT : timeout ≤ 0)
    (f : RetryFunc σ) (optFns : List OptionsFunc) (g : Operation τ α) (p : Retryable)
    (now : Time) (s : σ) (u : τ) :
    RetryContext timeout (recorded f) optFns now (s, [])
        = { ret := some (Error.timeoutError "" timeout ["success"]), state := (s, []),
            now := now }
      ∧ retryWhenLoop timeout (recorded g) p now (u, [])
        = { ret := some (Error.timeoutError "" timeout ["success"]),
            state := ((u, []), none), now := now }
      ∧ RetryWhenContext timeout (recorded g) p now (u, [])
        = { ret := returned (g now u).1.1 (g now u).1.2, state := ((g now u).2, [now]),
            now := now }
      ∧ ((g now u).1.2 = none →
          (RetryWhenContext timeout (recorded g) p now (u, [])).ret = ((g now u).1.1, none))
      ∧ (∀ e, (g now u).1.2 = some e →
          (RetryWhenContext timeout (recorded g) p now (u, [])).ret = (none, some e)) := by
  have hw : RetryWhenContext timeout (recorded g) p now (u, [])
      = { ret := returned (g now u).1.1 (g now u).1.2, state := ((g now u).2, [now]),
          now := now } := by
    rw [when_nonpositive timeout (recorded g) p now (u, []) hT, lastChance_recorded]
    simp
  refine ⟨retryContext_nonpositive timeout (recorded f) optFns now (s, []) hT,
    loop_nonpositive timeout (recorded g) p now (u, []) hT, hw, ?_, ?_⟩
  · intro h
    rw [hw, h]
    rfl
  · intro e h
    rw [hw, h]
    rfl

/-- C20, amended, at a concrete input: a timeout of minus one second; the
function given to `RetryContext` is never called, the operation given to
`RetryWhenContext` is called once and its success is returned. -/
theorem C20_nonpositive_timeout_witness :
    RetryContext (-Second) (recorded (rfAlways none)) [WithDelay Second] 0 ((), [])
        = { ret := some (Error.timeoutError "" (-Second) ["success"]), state := ((), []),
            now := 0 }
      ∧ RetryWhenContext (-Second) (recorded (opAlways (some 8, none))) retryOnError 0 ((), [])
        = { ret := (some 8, none), state := ((), [0]), now := 0 } :=
  ⟨(C20_nonpositive_timeout (-Second) (by decide) (rfAlways none) [WithDelay Second]
      (opAlways (some 8, none)) retryOnError 0 () ()).1,
    (C20_nonpositive_timeout (-Second) (by decide) (rfAlways none) [WithDelay Second]
      (opAlways (some 8, none)) retryOnError 0 () ()).2.2.1⟩

end tfresource

/-! ## Options -/

namespace tfresource

open resource

/-- C21. For every `Options` `o` and every `StateChangeConf` `c`, after
`o.Apply(c)`: `c.Delay` is `o.Delay` if `o.Delay > 0` and is unchanged
otherwise; `c.MinTimeout` is `o.MinPollInterval` if `o.MinPollInterval > 0` and
is unchanged otherwise; `c.PollInterval` is `o.PollInterval` if
`o.PollInterval > 0` and is unchanged otherwise. The zero `Options` leaves
every configuration, and so a zero one, as it is. -/
theorem C21_options_apply {τ β : Type} (o : Options) (c : StateChangeConf τ β) :
    (o.Apply c).Delay = (if 0 < o.Delay then o.Delay else c.Delay)
      ∧ (o.Apply c).MinTimeout
          = (if 0 < o.MinPollInterval then o.MinPollInterval else c.MinTimeout)
      ∧ (o.Apply c).PollInterval
          = (if 0 < o.PollInterval then o.PollInterval else c.PollInterval)
      ∧ ({ Delay := 0, MinPollInterval := 0, PollInterval := 0 } : Options).Apply c = c := by
  refine ⟨?_, ?_, ?_, rfl⟩ <;>
    · simp only [Options.Apply]
      split_ifs <;> rfl

theorem buildOptions_append (optFns : List OptionsFunc) (fn : OptionsFunc) :
    buildOptions (optFns ++ [fn]) = fn (buildOptions optFns) := by
  simp [buildOptions, List.foldl_append]

/-- C29. For every `Options` `o` and `StateChangeConf` `c`, `o.Apply(c)` is `c`
with new values of `Delay`, `MinTimeout` and `PollInterval` and nothing else
changed. So the `Timeout`, `Pending`, `Target` and `Refresh` that `RetryContext`
sets are the same after any sequence of option functions. Each of `WithDelay`,
`WithMinPollInterval` and `WithPollInterval` sets its own field of `Options`
and leaves the two others; applied after other option functions it wins. -/
theorem C29_options_frame {τ β σ : Type} (o : Options) (c : StateChangeConf τ β)
    (timeout : Duration) (f : RetryFunc σ) (optFns : List OptionsFunc) (d : Duration) :
    (o.Apply c
        = { c with Delay := (o.Apply c).Delay, MinTimeout := (o.Apply c).MinTimeout,
                   PollInterval := (o.Apply c).PollInterval })
      ∧ ((o.Apply c).Timeout = c.Timeout ∧ (o.Apply c).Pending = c.Pending
          ∧ (o.Apply c).Target = c.Target ∧ (o.Apply c).Refresh = c.Refresh)
      ∧ ((retryConf timeout f optFns).Timeout = timeout
          ∧ (retryConf timeout f optFns).Pending = ["retryableerror"]
          ∧ (retryConf timeout f optFns).Target = ["success"]
          ∧ (retryConf timeout f optFns).Refresh = retryRefresh f)
      ∧ (WithDelay d o = { o with Delay := d }
          ∧ WithMinPollInterval d o = { o with MinPollInterval := d }
          ∧ WithPollInterval d o = { o with PollInterval := d })
      ∧ (buildOptions (optFns ++ [WithDelay d])
            = { buildOptions optFns with Delay := d }
          ∧ buildOptions (optFns ++ [WithMinPollInterval d])
            = { buildOptions optFns with MinPollInterval := d }
          ∧ buildOptions (optFns ++ [WithPollInterval d])
            = { buildOptions optFns with PollInterval := d }) := by
  refine ⟨?_, ⟨?_, ?_, ?_, ?_⟩,
    ⟨retryConf_Timeout timeout f optFns, retryConf_Pending timeout f optFns,
      retryConf_Target timeout f optFns, retryConf_Refresh timeout f optFns⟩,
    ⟨rfl, rfl, rfl⟩,
    ⟨buildOptions_append optFns _, buildOptions_append optFns _, buildOptions_append optFns _⟩⟩
  all_goals
    simp only [Options.Apply]
    split_ifs <;> rfl

end tfresource

namespace tfresource

open resource

theorem retryConf_Delay {σ : Type} (timeout : Duration) (f : RetryFunc σ)
    (optFns : List OptionsFunc) :
    (retryConf timeout f optFns).Delay
      = (if 0 < (buildOptions optFns).Delay then (buildOptions optFns).Delay else 0) := by
  simp only [retryConf, Options.Apply]
  split_ifs <;> rfl

theorem retryContext_state_eq {σ : Type} (timeout : Duration) (f : RetryFunc σ)
    (optFns : List OptionsFunc) (now : Time) (s : σ) :
    (RetryContext timeout f optFns now s).state = (retryWait timeout f optFns now s).state.1 := by
  rcases hs : (retryWait timeout f optFns now s).state.2 with _ | e <;>
    simp [RetryContext, hs]

theorem retryContext_calls {σ : Type} (timeout : Duration) (f : RetryFunc σ)
    (optFns : List OptionsFunc) (now : Time) (s : σ) :
    ∃ k, (RetryContext timeout f optFns now s).state
      = stateAt f (retryTimes timeout f optFns now) s k := by
  by_cases hT : 0 < timeout
  · obtain ⟨K, hd, hlt⟩ := exists_deadline_index (retryConf timeout f optFns).Delay
      (retryConf timeout f optFns).MinTimeout (retryConf timeout f optFns).PollInterval now
      (now + timeout)
    by_cases hall : ∀ i, i < K → ∃ rerr,
        resultAt f (retryTimes timeout f optFns now) s i = some rerr ∧ rerr.Retryable = true
    · refine ⟨K, ?_⟩
      rw [retryContext_timeout timeout f optFns now s K hT hall hlt hd]
    · have hex : ∃ i, i < K ∧ ¬ ∃ rerr,
          resultAt f (retryTimes timeout f optFns now) s i = some rerr
            ∧ rerr.Retryable = true := by
        by_contra hno
        apply hall
        intro i hi
        by_contra hni
        exact hno ⟨i, hi, hni⟩
      classical
      have hk := Nat.find_spec hex
      have hmin : ∀ j, j < Nat.find hex → ∃ rerr,
          resultAt f (retryTimes timeout f optFns now) s j = some rerr
            ∧ rerr.Retryable = true := by
        intro j hj
        by_contra hnj
        exact Nat.find_min hex hj ⟨lt_trans hj hk.1, hnj⟩
      have hw := retryWait_attempt timeout f optFns now s (Nat.find hex) hmin (hlt _ hk.1) (by
        intro rerr hr
        cases hb : rerr.Retryable with
        | false => rfl
        | true => exact absurd ⟨rerr, hr, hb⟩ hk.2)
      refine ⟨Nat.find hex + 1, ?_⟩
      rw [retryContext_state_eq, hw]
  · refine ⟨0, ?_⟩
    rw [retryContext_nonpositive timeout f optFns now s (not_lt.mp hT)]
    rfl

/-- C22. For every `d > 0`, `RetryContext` called with option functions that
leave the delay `d` in the options, `WithDelay(d)` alone for one, makes no call
of `f` before the delay `d` has elapsed: the wait it runs is configured with
`Delay = d`, and every call of `f` it logs is made at `now + d` or later. When
no delay option is given, the configured `Delay` is zero. -/
theorem C22_delay_precedes_first_call {σ : Type} (d : Duration) (hd : 0 < d)
    (timeout : Duration) (f : RetryFunc σ) (optFns : List OptionsFunc)
    (hopt : (buildOptions optFns).Delay = d) (now : Time) (s : σ) :
    (retryConf timeout f optFns).Delay = d
      ∧ (∀ t, t ∈ (RetryContext timeout (recorded f) optFns now (s, [])).state.2 → now + d ≤ t)
      ∧ (buildOptions [WithDelay d]).Delay = d
      ∧ (retryConf timeout f []).Delay = 0
      ∧ (∀ fns : List OptionsFunc, (buildOptions fns).Delay = 0 →
          (retryConf timeout f fns).Delay = 0) := by
  have hdelay : ∀ {ρ : Type} (g : RetryFunc ρ), (retryConf timeout g optFns).Delay = d := by
    intro ρ g
    rw [retryConf_Delay, hopt]
    simp [hd]
  refine ⟨hdelay f, ?_, rfl, rfl, ?_⟩
  · intro t ht
    obtain ⟨k, hk⟩ := retryContext_calls timeout (recorded f) optFns now (s, [])
    rw [hk, recorded_stateAt] at ht
    simp only [List.nil_append, List.mem_map, List.mem_range] at ht
    obtain ⟨i, _, rfl⟩ := ht
    have h0 : retryTimes timeout (recorded f) optFns now 0 = now + max 0 d := by
      simp only [retryTimes, confTimes, attemptTime_zero, hdelay (recorded f)]
    have hmono : retryTimes timeout (recorded f) optFns now 0
        ≤ retryTimes timeout (recorded f) optFns now i :=
      attemptTime_mono _ _ _ now (Nat.zero_le i)
    have hmax : max 0 d = d := max_eq_right (le_of_lt hd)
    rw [h0, hmax] at hmono
    exact hmono
  · intro fns h
    rw [retryConf_Delay, h]
    simp

/-- C22 at a concrete input: a delay of three seconds and a timeout of five;
the function is called at three seconds and, after a retryable error, at 3.2
seconds. -/
theorem C22_delay_precedes_first_call_witness :
    (retryConf (5 * Second) (rfSwitch 1 (some (RetryableError (some errThrottled))) none)
        [WithDelay (3 * Second)]).Delay = 3 * Second
      ∧ (RetryContext (5 * Second)
          (recorded (rfSwitch 1 (some (RetryableError (some errThrottled))) none))
          [WithDelay (3 * Second)] 0 (0, [])).state.2 = [3000000000, 3200000000] :=
  ⟨(C22_delay_precedes_first_call (3 * Second) (by decide) (5 * Second)
      (rfSwitch 1 (some (RetryableError (some errThrottled))) none) [WithDelay (3 * Second)]
      (by decide) 0 0).1, by decide⟩

end tfresource

namespace tfresource

open resource

theorem WithDelayRand_in_range (delayRand : Duration) (draw : Nat) (o : Options)
    (h : Millisecond ≤ delayRand) :
    ∃ o', WithDelayRand delayRand draw o = some o' ∧ 0 ≤ o'.Delay ∧ o'.Delay < delayRand
      ∧ o'.MinPollInterval = o.MinPollInterval ∧ o'.PollInterval = o.PollInterval := by
  have hms : Millisecond = (1000000 : Int) := rfl
  rw [hms] at h
  have h0 : (0 : Int) ≤ delayRand := le_trans (by decide) h
  have hdiv : Milliseconds delayRand = delayRand / 1000000 := by
    unfold Milliseconds
    exact Int.tdiv_eq_ediv h0 (by decide)
  generalize hM : Milliseconds delayRand = ms at hdiv
  have hpos : 0 < ms := by
    simp only [Duration] at *
    omega
  have hn0 := Int.emod_nonneg (draw : Int) (ne_of_gt hpos)
  have hn1 := Int.emod_lt_of_pos (draw : Int) hpos
  refine ⟨{ o with Delay := ((draw : Int) % ms) * Millisecond }, ?_, ?_, ?_, rfl, rfl⟩
  · simp [WithDelayRand, Int63n, hM, not_le.mpr hpos]
  · show (0 : Int) ≤ ((draw : Int) % ms) * Millisecond
    rw [hms]
    omega
  · show ((draw : Int) % ms) * Millisecond < delayRand
    rw [hms]
    simp only [Duration] at *
    omega

/-- C23, the code at failing inputs. For a duration of zero, for a duration of
less than a millisecond and for a negative duration, the count of milliseconds
handed to `rand.Int63n` is zero or less, and the option function that
`WithDelayRand` returns panics when it is applied, whatever the random draw and
the options: it does not set `Options.Delay`. -/
theorem C23_delay_rand_panics :
    Milliseconds 0 = 0 ∧ Milliseconds 999999 = 0 ∧ Milliseconds (-Second) = -1000
      ∧ (∀ draw o, WithDelayRand 0 draw o = none)
      ∧ (∀ draw o, WithDelayRand 999999 draw o = none)
      ∧ (∀ draw o, WithDelayRand (-Second) draw o = none) := by
  have h1 : Milliseconds 0 = 0 := by decide
  have h2 : Milliseconds 999999 = 0 := by decide
  have h3 : Milliseconds (-Second) = -1000 := by decide
  refine ⟨h1, h2, h3, ?_, ?_, ?_⟩
  · intro draw o
    simp [WithDelayRand, Int63n, h1]
  · intro draw o
    simp [WithDelayRand, Int63n, h2]
  · intro draw o
    simp [WithDelayRand, Int63n, h3]

end tfresource

/-! ## The expanders and flatteners of the package `s3` -/

namespace s3

open resource

theorem filter_prefix_excludes (tagsOf : TfValue → List Tag) (l : List TfValue)
    (r : LifecycleRuleFilter) (h : ExpandLifecycleRuleFilter tagsOf l = some (some r))
    (hp : r.Prefix ≠ none) : r.And = none ∧ r.Tag = none := by
  unfold ExpandLifecycleRuleFilter at h
  split at h
  · simp at h
  · simp only [Option.some.injEq] at h
    subst h
    simp at hp
  · simp only at h
    split at h
    · simp at h
    · simp only [Option.some.injEq] at h
      subst h
      simp only at hp
      split at hp
      · split_ifs at hp with hc
        · exact hc
        · simp at hp
      · simp at hp
  · simp at h

/-- C24, the code at a failing input. The map given to
`ExpandLifecycleRuleFilter` has an `and` block with a prefix, a `tag` block and
a `prefix`. The filter returned has both `And` and `Tag` set: two of the three
fields of which the comment on the function says that only one can be had. -/
theorem C24_and_with_tag_both_set :
    ExpandLifecycleRuleFilter keyValueTags
        [TfValue.map
          [("and", TfValue.list [TfValue.map [("prefix", TfValue.string "logs/")]]),
            ("tag", TfValue.list [TfValue.map [("Name", TfValue.string "archive")]]),
            ("prefix", TfValue.string "tmp/")]]
      = some (some
          { And := some { ObjectSizeGreaterThan := none, ObjectSizeLessThan := none,
                          Prefix := some "logs/", Tags := [] },
            ObjectSizeGreaterThan := none, ObjectSizeLessThan := none, Prefix := none,
            Tag := some { Key := some "Name", Value := some "archive" } }) := by
  decide

end s3

namespace s3

open resource

/-- C25, as stated, fails for the date `2022-01-01T1:00:00Z`. It is not empty
and it is not valid RFC 3339, the hour having one digit; `time.Parse` accepts
it all the same, so `ExpandLifecycleRuleExpiration` returns no error but a
result, with `Date` set to one o'clock of that day. -/
theorem C25_counterexample :
    asString (index [("date", TfValue.string "2022-01-01T1:00:00Z")] "date")
        = some "2022-01-01T1:00:00Z"
      ∧ "2022-01-01T1:00:00Z" ≠ ""
      ∧ validRFC3339 "2022-01-01T1:00:00Z" = false
      ∧ ExpandLifecycleRuleExpiration timeParseRFC3339
          [TfValue.map [("date", TfValue.string "2022-01-01T1:00:00Z")]]
        = some (some { Date := some 1640998800000000000, Days := none,
                       ExpiredObjectDeleteMarker := none }, none) := by
  refine ⟨rfl, by decide, by decide, by decide⟩

/-- C25, amended. For every input list `l` on which
`ExpandLifecycleRuleExpiration` succeeds, the result has
`ExpiredObjectDeleteMarker` set only if both `Date` and `Days` are nil; a `date`
that is not empty and that `time.Parse` rejects makes it return an error,
wrapping the parse error, with a nil result; and a `date` that is not empty and
that `time.Parse` accepts, valid RFC 3339 or not, gives a result with the parsed
time as `Date` and a nil error. -/
theorem C25_expiration_marker_is_exclusive
    (parseRFC3339 : String → Except resource.Error TimeValue) (l : List TfValue) :
    (∀ r, ExpandLifecycleRuleExpiration parseRFC3339 l = some (some r, none) →
        r.ExpiredObjectDeleteMarker ≠ none → r.Date = none ∧ r.Days = none)
      ∧ (∀ m rest v err, l = TfValue.map m :: rest → asString (index m "date") = some v →
          v ≠ "" → parseRFC3339 v = Except.error err →
          ExpandLifecycleRuleExpiration parseRFC3339 l
            = some (none, some (resource.Error.wrapError
                "error parsing S3 Bucket Lifecycle Rule Expiration date" err)))
      ∧ (∀ m rest v t, l = TfValue.map m :: rest → asString (index m "date") = some v →
          v ≠ "" → parseRFC3339 v = Except.ok t →
          ∃ r, ExpandLifecycleRuleExpiration parseRFC3339 l = some (some r, none)
            ∧ r.Date = some t) := by
  refine ⟨?_, ?_, ?_⟩
  · intro r h hm
    unfold ExpandLifecycleRuleExpiration at h
    split at h
    · simp at h
    · simp only [Option.some.injEq, Prod.mk.injEq, and_true] at h
      subst h
      simp at hm
    · simp only at h
      split at h
      · simp at h
      · simp only [Option.some.injEq, Prod.mk.injEq, and_true] at h
        subst h
        simp only at hm
        split at hm
        · split_ifs at hm with hc
          · exact hc
          · simp at hm
        · simp at hm
    · simp at h
  · intro m rest v err hl hv hne hp
    subst hl
    simp [ExpandLifecycleRuleExpiration, hv, hne, hp]
  · intro m rest v t hl hv hne hp
    subst hl
    simp [ExpandLifecycleRuleExpiration, hv, hne, hp]

/-- C25 at concrete inputs, with `time.Parse` as the parser. A rule with only
the marker succeeds and keeps it, `Date` and `Days` being nil; the date
`yesterday`, which `time.Parse` rejects, gives the wrapped error and a nil
result; the date `2022-01-01T00:00:00Z`, which it accepts, gives a result with
that time as `Date`. -/
theorem C25_expiration_marker_is_exclusive_witness :
    (ExpandLifecycleRuleExpiration timeParseRFC3339
          [TfValue.map [("expired_object_delete_marker", TfValue.bool true)]]
        = some (some { Date := none, Days := none, ExpiredObjectDeleteMarker := some true },
            none)
      ∧ LifecycleExpiration.Date
            { Date := none, Days := none, ExpiredObjectDeleteMarker := some true } = none
      ∧ LifecycleExpiration.Days
            { Date := none, Days := none, ExpiredObjectDeleteMarker := some true } = none)
      ∧ ExpandLifecycleRuleExpiration timeParseRFC3339
          [TfValue.map [("date", TfValue.string "yesterday"), ("days", TfValue.int 3)]]
        = some (none, some (resource.Error.wrapError
            "error parsing S3 Bucket Lifecycle Rule Expiration date"
            (resource.Error.errorString "parsing time yesterday")))
      ∧ ∃ r, ExpandLifecycleRuleExpiration timeParseRFC3339
          [TfValue.map [("date", TfValue.string "2022-01-01T00:00:00Z"),
            ("days", TfValue.int 3), ("expired_object_delete_marker", TfValue.bool true)]]
          = some (some r, none) ∧ r.Date = some 1640995200000000000 :=
  ⟨⟨by decide,
      (C25_expiration_marker_is_exclusive timeParseRFC3339
        [TfValue.map [("expired_object_delete_marker", TfValue.bool true)]]).1
        { Date := none, Days := none, ExpiredObjectDeleteMarker := some true }
        (by decide) (by decide)⟩,
    (C25_expiration_marker_is_exclusive timeParseRFC3339
      [TfValue.map [("date", TfValue.string "yesterday"), ("days", TfValue.int 3)]]).2.1
      [("date", TfValue.string "yesterday"), ("days", TfValue.int 3)] [] "yesterday"
      (resource.Error.errorString "parsing time yesterday") rfl rfl (by decide) rfl,
    (C25_expiration_marker_is_exclusive timeParseRFC3339
      [TfValue.map [("date", TfValue.string "2022-01-01T00:00:00Z"),
        ("days", TfValue.int 3), ("expired_object_delete_marker", TfValue.bool true)]]).2.2
      [("date", TfValue.string "2022-01-01T00:00:00Z"),
        ("days", TfValue.int 3), ("expired_object_delete_marker", TfValue.bool true)] []
      "2022-01-01T00:00:00Z" 1640995200000000000 rfl rfl (by decide) rfl⟩

theorem wrapInt64_of_int64 (x : Int)
    (h : -9223372036854775808 ≤ x ∧ x < 9223372036854775808) : wrapInt64 x = x := by
  unfold wrapInt64
  omega

/-- C30. For every non-nil `s3.ReplicationTime` `rt` whose `Status` is nil or a
string that is not empty, and whose nested `Time`, if present, has any `int64`
as `Minutes` or none, `ExpandReplicationTime(FlattenReplicationTime(rt))` is
structurally equal to `rt`; and `FlattenReplicationTime(nil)` is the empty
list, which `ExpandReplicationTime` maps back to nil. -/
theorem C30_replication_time_round_trip (rt : ReplicationTime) (hs : rt.Status ≠ some "")
    (hm : ∀ t m, rt.Time = some t → t.Minutes = some m →
      -9223372036854775808 ≤ m ∧ m < 9223372036854775808) :
    ExpandReplicationTime (FlattenReplicationTime (some rt)) = some rt
      ∧ FlattenReplicationTime none = []
      ∧ ExpandReplicationTime [] = none
      ∧ ExpandReplicationTime (FlattenReplicationTime none) = none := by
  refine ⟨?_, rfl, rfl, rfl⟩
  rcases rt with ⟨status, time⟩
  have hw : ∀ m, time = some { Minutes := some m } → wrapInt64 (wrapInt64 m) = m := by
    intro m ht
    have hr := hm { Minutes := some m } m ht rfl
    rw [wrapInt64_of_int64 m hr, wrapInt64_of_int64 m hr]
  cases status with
  | none =>
    cases time with
    | none => rfl
    | some t =>
      rcases t with ⟨minutes⟩
      cases minutes with
      | none => rfl
      | some m =>
        have h := hw m rfl
        simp [ExpandReplicationTime, FlattenReplicationTime, FlattenReplicationTimeValue,
          ExpandReplicationTimeValue, setKey, index, asList, asInt, asString, List.lookup, h]
  | some st =>
    have hst : st ≠ "" := fun h => hs (by rw [h])
    cases time with
    | none =>
      simp [ExpandReplicationTime, FlattenReplicationTime, setKey, index, asList, asString,
        List.lookup, hst]
    | some t =>
      rcases t with ⟨minutes⟩
      cases minutes with
      | none =>
        simp [ExpandReplicationTime, FlattenReplicationTime, FlattenReplicationTimeValue,
          ExpandReplicationTimeValue, setKey, index, asList, asInt, asString, List.lookup, hst]
      | some m =>
        have h := hw m rfl
        simp [ExpandReplicationTime, FlattenReplicationTime, FlattenReplicationTimeValue,
          ExpandReplicationTimeValue, setKey, index, asList, asInt, asString, List.lookup, hst, h]

/-- C30 at a concrete input: replication time control of fifteen minutes. -/
theorem C30_replication_time_round_trip_witness :
    ExpandReplicationTime
        (FlattenReplicationTime
          (some { Status := some "Enabled", Time := some { Minutes := some 15 } }))
      = some { Status := some "Enabled", Time := some { Minutes := some 15 } } :=
  (C30_replication_time_round_trip
    { Status := some "Enabled", Time := some { Minutes := some 15 } } (by decide)
    (by
      intro t m ht hmin
      cases ht
      cases hmin
      decide)).1

end s3

/-! ## What every run of `RetryWhenContext` and `RetryContext` returns -/

namespace tfresource

open resource

theorem when_cases {σ α : Type} (timeout : Duration) (f : Operation σ α) (p : Retryable)
    (now : Time) (s : σ) :
    (∃ t st, RetryWhenContext timeout f p now s = lastChance f t st)
      ∨ (∃ k e, RetryWhenContext timeout f p now s
          = { ret := returned (resultAt f (whenTimes now) s k).1 e,
              state := stateAt f (whenTimes now) s (k + 1), now := whenTimes now k })
      ∨ (∃ e st t, RetryWhenContext timeout f p now s
          = { ret := (none, some e), state := st, now := t }) := by
  by_cases hT : 0 < timeout
  · obtain ⟨K, hd, hlt⟩ := exists_deadline_index 0 0 0 now (now + timeout)
    by_cases hall : ∀ i, i < K → (p (resultAt f (whenTimes now) s i).2).1 = true
    · have hr := when_timeout timeout f p now s K hT hall hlt hd
      rcases hre : reasonAt p f (whenTimes now) s K with _ | e
      · rw [hre] at hr
        exact Or.inl ⟨_, _, hr⟩
      · rw [hre] at hr
        by_cases hto : TimedOut (some e) = true
        · simp only [hto, if_true] at hr
          exact Or.inl ⟨_, _, hr⟩
        · simp only [hto] at hr
          exact Or.inr (Or.inr ⟨e, _, _, hr⟩)
    · have hex : ∃ i, i < K ∧ ¬ (p (resultAt f (whenTimes now) s i).2).1 = true := by
        by_contra hno
        apply hall
        intro i hi
        by_contra hni
        exact hno ⟨i, hi, hni⟩
      classical
      have hk := Nat.find_spec hex
      have hmin : ∀ j, j < Nat.find hex → (p (resultAt f (whenTimes now) s j).2).1 = true := by
        intro j hj
        by_contra hnj
        exact Nat.find_min hex hj ⟨lt_trans hj hk.1, hnj⟩
      have hp : p (resultAt f (whenTimes now) s (Nat.find hex)).2
          = (false, (p (resultAt f (whenTimes now) s (Nat.find hex)).2).2) := by
        have hb : (p (resultAt f (whenTimes now) s (Nat.find hex)).2).1 = false := by
          simpa using hk.2
        exact Prod.ext hb rfl
      by_cases hto : TimedOut (p (resultAt f (whenTimes now) s (Nat.find hex)).2).2 = true
      · rcases he : (p (resultAt f (whenTimes now) s (Nat.find hex)).2).2 with _ | x
        · rw [he] at hto
          simp [TimedOut] at hto
        · rw [he] at hp hto
          exact Or.inl ⟨_, _, when_quit_timedOut timeout f p now s _ x hmin (hlt _ hk.1) hp hto⟩
      · have hto' : TimedOut (p (resultAt f (whenTimes now) s (Nat.find hex)).2).2 = false := by
          simpa using hto
        exact Or.inr (Or.inl ⟨_, _, when_stop timeout f p now s _ _ hmin (hlt _ hk.1) hp hto'⟩)
  · exact Or.inl ⟨_, _, when_nonpositive timeout f p now s (not_lt.mp hT)⟩

/-- C26. For every operation `f`, predicate and timeout: whenever
`RetryWhenContext` returns a non-nil error its returned value is nil, also when
the attempt that produced the error produced a value; and whenever it returns a
nil error, `f` has been called and the value returned is the one the most
recent call of `f` returned. -/
theorem C26_value_only_with_nil_error {σ α : Type} (timeout : Duration) (f : Operation σ α)
    (p : Retryable) (now : Time) (s : σ) :
    ((RetryWhenContext timeout f p now s).ret.2 ≠ none →
        (RetryWhenContext timeout f p now s).ret.1 = none)
      ∧ ((RetryWhenContext timeout (tracked f) p now (s, none)).ret.2 = none →
          (RetryWhenContext timeout (tracked f) p now (s, none)).state.2
            = some (RetryWhenContext timeout (tracked f) p now (s, none)).ret.1) := by
  constructor
  · intro h
    unfold RetryWhenContext at h ⊢
    simp only at h ⊢
    split
    · rfl
    · rename_i hnone
      rw [hnone] at h
      simp at h
  · intro h
    rcases when_cases timeout (tracked f) p now (s, none) with
      ⟨t, st, hr⟩ | ⟨k, e, hr⟩ | ⟨e, st, t, hr⟩
    · have hstate : (lastChance (tracked f) t st).state = (tracked f t st).2 := by
        simp only [lastChance]
        split <;> rfl
      rw [hr] at h ⊢
      rw [lastChance_ret] at h ⊢
      rw [hstate]
      rcases hb : (tracked f t st).1.2 with _ | x
      · rfl
      · rw [hb] at h
        simp [returned] at h
    · rw [hr] at h ⊢
      cases e with
      | none => rfl
      | some x => simp [returned] at h
    · rw [hr] at h
      simp at h

/-- C26 at a concrete input: an attempt that returns the value 7 with the error
`errBoom` gives a nil value with that error; two throttled calls and then the
value 8 give the value of the last call. -/
theorem C26_value_only_with_nil_error_witness :
    (RetryWhenContext (5 * Second) (opAlways (some 7, some errBoom)) neverRetry 0 ()).ret.1 = none
      ∧ (RetryWhenContext (5 * Second)
          (tracked (opSwitch 2 (none, some errThrottled) (some 8, none))) retryOnError 0
          (0, none)).state.2
        = some (RetryWhenContext (5 * Second)
          (tracked (opSwitch 2 (none, some errThrottled) (some 8, none))) retryOnError 0
          (0, none)).ret.1 :=
  ⟨(C26_value_only_with_nil_error (5 * Second) (opAlways (some 7, some errBoom)) neverRetry 0
      ()).1 (by decide),
    (C26_value_only_with_nil_error (5 * Second)
      (opSwitch 2 (none, some errThrottled) (some 8, none)) retryOnError 0 0).2 (by decide)⟩

end tfresource

namespace tfresource

open resource

/-- C27. In `RetryContext` the recorded error reflects the most recent
completed attempt only: what `resultErr` holds after an attempt is the `Err` of
that attempt, nil after an attempt of `f` that returns nil. So when `k`
retryable errors are followed, before the timeout, by a success, the wait ends
with a nil error and a nil `resultErr`, and `RetryContext` returns nil after
`k + 1` calls, never an earlier retryable error. -/
theorem C27_recorded_error_is_most_recent {σ : Type} (timeout : Duration) (f : RetryFunc σ)
    (optFns : List OptionsFunc) (now : Time) (s : σ) (k : Nat)
    (h : ∀ i, i < k → ∃ rerr, resultAt f (retryTimes timeout f optFns now) s i = some rerr
      ∧ rerr.Retryable = true)
    (hk : resultAt f (retryTimes timeout f optFns now) s k = none)
    (ht : retryTimes timeout f optFns now k < now + timeout) :
    (∀ j, resultAt f (retryTimes timeout f optFns now) s j = none →
        resultErrAt f (retryTimes timeout f optFns now) s (j + 1) = none)
      ∧ (∀ j rerr, resultAt f (retryTimes timeout f optFns now) s j = some rerr →
          resultErrAt f (retryTimes timeout f optFns now) s (j + 1) = rerr.Err)
      ∧ (retryWait timeout f optFns now s).ret.2 = none
      ∧ (retryWait timeout f optFns now s).state.2 = none
      ∧ RetryContext timeout (recorded f) optFns now (s, [])
        = { ret := none,
            state := (stateAt f (retryTimes timeout f optFns now) s (k + 1),
              (List.range (k + 1)).map (retryTimes timeout f optFns now)),
            now := retryTimes timeout f optFns now k } := by
  have hw := retryWait_attempt timeout f optFns now s k h ht (by simp [hk])
  have hc := retryTimes_congr timeout timeout (recorded f) f optFns now
  have hr := retryContext_success timeout (recorded f) optFns now (s, []) k
    (fun i hi => by rw [hc, recorded_resultAt]; exact h i hi) (by rw [hc]; exact ht)
    (by rw [hc, recorded_resultAt]; exact hk)
  rw [hc, recorded_stateAt] at hr
  refine ⟨?_, ?_, ?_, ?_, ?_⟩
  · intro j hj
    simp only [resultErrAt, hj]
  · intro j rerr hj
    simp only [resultErrAt, hj]
  · rw [hw, hk]
  · rw [hw]
    simp only [resultErrAt, hk]
  · rw [hr]
    simp

/-- C27 at a concrete input: two retryable throttling errors, then success. -/
theorem C27_recorded_error_is_most_recent_witness :
    RetryContext (5 * Second)
        (recorded (rfSwitch 2 (some (RetryableError (some errThrottled))) none)) [] 0 (0, [])
      = { ret := none, state := (3, [0, 200000000, 600000000]), now := 600000000 } :=
  (C27_recorded_error_is_most_recent (5 * Second)
    (rfSwitch 2 (some (RetryableError (some errThrottled))) none) [] 0 0 2 (by decide)
    (by decide) (by decide)).2.2.2.2

/-- C28. The refresh function `RetryContext` builds maps each attempt onto the
state machine as follows: a nil `RetryError` gives the label `success`, a member
of `Target`, with a nil error; a retryable `RetryError` gives the label
`retryableerror`, a member of `Pending`, with a nil error; a `RetryError` that is
not retryable gives the label `quit`, in neither set, together with its `Err`.
Hence for every `RetryError` whose `Err` is not nil, a label outside `Pending`
and `Target` comes with a refresh error that is not nil. -/
theorem C28_refresh_labels {σ : Type} (timeout : Duration) (f : RetryFunc σ)
    (optFns : List OptionsFunc) (now : Time) (s : σ) (c : Option Error) :
    ((f now s).1 = none → (retryRefresh f now (s, c)).1 = (some 42, "success", none))
      ∧ (∀ rerr, (f now s).1 = some rerr → rerr.Retryable = true →
          (retryRefresh f now (s, c)).1 = (some 42, "retryableerror", none))
      ∧ (∀ rerr, (f now s).1 = some rerr → rerr.Retryable = false →
          (retryRefresh f now (s, c)).1 = (none, "quit", rerr.Err))
      ∧ ("success" ∈ (retryConf timeout f optFns).Target
          ∧ "retryableerror" ∈ (retryConf timeout f optFns).Pending
          ∧ "quit" ∉ (retryConf timeout f optFns).Target
          ∧ "quit" ∉ (retryConf timeout f optFns).Pending)
      ∧ (retryConf timeout f optFns).Refresh = retryRefresh f
      ∧ (∀ rerr, (f now s).1 = some rerr → rerr.Err ≠ none →
          (retryRefresh f now (s, c)).1.2.1 ∉ (retryConf timeout f optFns).Pending →
          (retryRefresh f now (s, c)).1.2.1 ∉ (retryConf timeout f optFns).Target →
          (retryRefresh f now (s, c)).1.2.2 ≠ none) := by
  refine ⟨?_, ?_, ?_, ?_, retryConf_Refresh timeout f optFns, ?_⟩
  · intro h
    rw [retryRefresh_eq, h]
    rfl
  · intro rerr h hr
    rw [retryRefresh_eq, h]
    simp [refreshOf, hr]
  · intro rerr h hr
    rw [retryRefresh_eq, h]
    simp [refreshOf, hr]
  · rw [retryConf_Target, retryConf_Pending]
    decide
  · intro rerr h he hp _
    rw [retryConf_Pending] at hp
    rw [retryRefresh_eq, h] at hp ⊢
    cases hb : rerr.Retryable with
    | true => simp [refreshOf, hb] at hp
    | false =>
      simp only [refreshOf, hb]
      exact he

end tfresource
